import Mathlib

/-!
# Verification of the quoting-and-inventory engine (`src/ASModel.py`)

Shallow embedding of the market-making engine in `src/ASModel.py` (with a
small section for the archive variant `src/archive/momentumArbitrage6.py`
where a claim refers to it).

Modelling conventions:
* Python integers become `Int`/`Nat`; Python `//` is `Int.fdiv`; Python `abs`
  on `Int` products is `Int.natAbs` (coerced back to `Int` where needed).
* The Python `set` objects (`bids`, `asks`, `hedge_bids`, `hedge_asks`) become
  `List Nat` manipulated with `List.insert` / `List.erase`; the engine only
  ever inserts fresh ids, so the lists behave as sets.
* The engine's outgoing calls (`send_insert_order`, `send_cancel_order`,
  `send_hedge_order`) are modelled by appending an `Intent` to an `intents`
  log carried in the state.
* The real-valued part of `on_order_book_update_message` (the
  Avellaneda-Stoikov price computation, lines 96-123, which uses `float`
  arithmetic and `math.log`) is embedded separately over `ℝ` (idealizing IEEE
  floats by exact real arithmetic); the time-horizon update over `ℚ`; the
  volatility window over `ℚ`.  The discrete order-management half of the
  handler (lines 125-142) is embedded as `on_order_book_update_message`,
  taking the two computed prices as arguments, so that the reachable-state
  arguments quantify over every possible pricer output.
-/

namespace ASModel

/-- Fixed constant `LOT_SIZE = 10` (line 12). -/
def LOT_SIZE : Int := 10

/-- Fixed constant `POSITION_LIMIT = 100` (line 13). -/
def POSITION_LIMIT : Int := 100

/-- Fixed constant `TICK_SIZE_IN_CENTS = 100` (line 14). -/
def TICK_SIZE_IN_CENTS : Int := 100

/-- Modelled from the spec: `MINIMUM_BID` is imported from the (absent)
`ready_trader_go` environment package; the spec (§6) only requires
"minimum/maximum tick-aligned price bounds for aggressive hedge pricing".
The concrete value is irrelevant to every claim. -/
def MINIMUM_BID : Int := 1

/-- Modelled from the spec: `MAXIMUM_ASK` from the absent `ready_trader_go`
environment package, see `MINIMUM_BID`. -/
def MAXIMUM_ASK : Int := 2147483647

/-- `MIN_BID_NEAREST_TICK = (MINIMUM_BID + TICK_SIZE_IN_CENTS) // TICK_SIZE_IN_CENTS * TICK_SIZE_IN_CENTS` (line 15). -/
def MIN_BID_NEAREST_TICK : Int :=
  (MINIMUM_BID + TICK_SIZE_IN_CENTS).fdiv TICK_SIZE_IN_CENTS * TICK_SIZE_IN_CENTS

/-- `MAX_ASK_NEAREST_TICK = MAXIMUM_ASK // TICK_SIZE_IN_CENTS * TICK_SIZE_IN_CENTS` (line 16). -/
def MAX_ASK_NEAREST_TICK : Int :=
  MAXIMUM_ASK.fdiv TICK_SIZE_IN_CENTS * TICK_SIZE_IN_CENTS

/-- Order side (`ready_trader_go.Side`; `BUY`/`BID` both buy, `SELL`/`ASK` both sell). -/
inductive Side where
  | buy
  | sell
deriving DecidableEq, Repr

/-- An outgoing order intent: one `send_insert_order`, `send_cancel_order` or
`send_hedge_order` call made by the engine. -/
inductive Intent where
  | insertOrder (id : Nat) (side : Side) (price : Int) (size : Int)
  | cancelOrder (id : Nat)
  | hedgeOrder (id : Nat) (side : Side) (price : Int) (size : Int)
deriving DecidableEq, Repr

/-- The running weighted-average exposure record
`self.orders_history = {"price": 0, "volume": 0}` (line 39). -/
structure Exposure where
  price : Int
  volume : Int
deriving DecidableEq, Repr

/-- The exposure-ledger merge, lines 166-181 of `on_order_filled_message`:
`vol` is the already-signed fill volume (positive for bid fills, negated for
ask fills at line 163).  Python `abs` is `Int.natAbs`, `//` is `Int.fdiv`. -/
def ledgerUpdate (E : Exposure) (price vol : Int) : Exposure :=
  let newVol := E.volume + vol
  if (vol > 0 ∧ E.volume > 0) ∨ (vol < 0 ∧ E.volume < 0) then
    { price := ((vol.natAbs : Int) * price + ((E.volume * E.price).natAbs : Int)).fdiv
        (newVol.natAbs : Int),
      volume := newVol }
  else
    if vol.natAbs < E.volume.natAbs then
      { E with volume := newVol }
    else if vol.natAbs = E.volume.natAbs then
      { price := 0, volume := 0 }
    else
      { volume := newVol, price := price }

/-- The hedge-target computation, lines 183-187 of `on_order_filled_message`:
```
hedged_pos_needed = -self.position
if hedged_pos_needed > 0:
    hedged_pos_needed = min(0, hedged_pos_needed - 10)
elif hedged_pos_needed < 0:
    hedged_pos_needed = max(0, hedged_pos_needed + 10)
```
-/
def hedgeTarget (position : Int) : Int :=
  let needed := -position
  if needed > 0 then min 0 (needed - 10)
  else if needed < 0 then max 0 (needed + 10)
  else needed

/-- The complete engine state: the mutable fields of `AutoTrader.__init__`
(lines 23-46) that the event handlers touch, plus the `intents` log of
outgoing order calls.  `next_order_id` models the `itertools.count(1)`
generator (`self.order_ids`, line 23): it holds the next value the generator
will yield. -/
structure EngState where
  next_order_id : Nat
  bids : List Nat
  asks : List Nat
  bid_id : Nat
  ask_id : Nat
  bid_price : Int
  ask_price : Int
  position : Int
  hedge_bids : List Nat
  hedge_asks : List Nat
  hedge_position : Int
  orders_history : Exposure
  intents : List Intent
deriving DecidableEq, Repr

/-- The initial state built by `__init__` (lines 20-46). -/
def initState : EngState where
  next_order_id := 1
  bids := []
  asks := []
  bid_id := 0
  ask_id := 0
  bid_price := 0
  ask_price := 0
  position := 0
  hedge_bids := []
  hedge_asks := []
  hedge_position := 0
  orders_history := { price := 0, volume := 0 }
  intents := []

/-- The hedge-sizing block, lines 183-203 of `on_order_filled_message`
(the target computation factored into `hedgeTarget`):
```
if self.hedge_position < hedged_pos_needed:
    buy_pos = hedged_pos_needed - self.hedge_position
    order_id = next(self.order_ids)
    self.hedge_position += buy_pos
    self.send_hedge_order(order_id, Side.BID, MAX_ASK_NEAREST_TICK, buy_pos)
    self.hedge_bids.add(order_id)
elif self.hedge_position > hedged_pos_needed:
    ...
```
Note that `self.hedge_position` is updated at issue time and the handler for
hedge fills (`on_hedge_filled_message`) performs no state update at all. -/
def applyHedge (s : EngState) : EngState :=
  if s.hedge_position < hedgeTarget s.position then
    { s with
      next_order_id := s.next_order_id + 1
      hedge_position := s.hedge_position + (hedgeTarget s.position - s.hedge_position)
      intents := s.intents ++ [Intent.hedgeOrder s.next_order_id Side.buy MAX_ASK_NEAREST_TICK
        (hedgeTarget s.position - s.hedge_position)]
      hedge_bids := s.hedge_bids.insert s.next_order_id }
  else if s.hedge_position > hedgeTarget s.position then
    { s with
      next_order_id := s.next_order_id + 1
      hedge_position := s.hedge_position - (s.hedge_position - hedgeTarget s.position)
      intents := s.intents ++ [Intent.hedgeOrder s.next_order_id Side.sell MIN_BID_NEAREST_TICK
        (s.hedge_position - hedgeTarget s.position)]
      hedge_asks := s.hedge_asks.insert s.next_order_id }
  else s

/-- `on_order_filled_message` (lines 150-203): position/sign handling
(lines 159-163: `volume` is negated for ask fills and left positive for bid
fills and for untracked fills), ledger merge (lines 166-181, factored into
`ledgerUpdate`), then the hedge-sizing block (factored into `applyHedge`). -/
def on_order_filled_message (s : EngState) (client_order_id : Nat) (price : Int)
    (volume : Nat) : EngState :=
  if client_order_id ∈ s.bids then
    applyHedge { s with
      position := s.position + volume
      orders_history := ledgerUpdate s.orders_history price (volume : Int) }
  else if client_order_id ∈ s.asks then
    applyHedge { s with
      position := s.position - volume
      orders_history := ledgerUpdate s.orders_history price (-(volume : Int)) }
  else
    applyHedge { s with
      orders_history := ledgerUpdate s.orders_history price (volume : Int) }

/-- `on_order_status_message` (lines 206-228). -/
def on_order_status_message (s : EngState) (client_order_id : Nat)
    (fill_volume remaining_volume fees : Int) : EngState :=
  if remaining_volume = 0 then
    let s1 :=
      if client_order_id = s.bid_id then { s with bid_id := 0 }
      else if client_order_id = s.ask_id then { s with ask_id := 0 }
      else s
    { s1 with
      bids := s1.bids.erase client_order_id
      asks := s1.asks.erase client_order_id }
  else s

/-- `on_error_message` (lines 49-57): a non-zero order id that is tracked in
`bids` or `asks` is forwarded to `on_order_status_message(id, 0, 0, 0)`;
everything else is ignored. -/
def on_error_message (s : EngState) (client_order_id : Nat) : EngState :=
  if client_order_id ≠ 0 ∧ (client_order_id ∈ s.bids ∨ client_order_id ∈ s.asks) then
    on_order_status_message s client_order_id 0 0 0
  else s

/-- `on_hedge_filled_message` (lines 59-67): the body only logs; no state is
touched. -/
def on_hedge_filled_message (s : EngState) (client_order_id : Nat) (price : Int)
    (volume : Nat) : EngState :=
  s

/-- Bid-cancel stage of `on_order_book_update_message`, lines 125-127
(`new_bid_price not in (self.bid_price, 0)` means the new price differs from
the resting price and is non-zero):
```
if self.bid_id != 0 and new_bid_price not in (self.bid_price, 0):
    self.send_cancel_order(self.bid_id)
    self.bid_id = 0
```
-/
def cancelBidStage (s : EngState) (new_bid_price : Int) : EngState :=
  if s.bid_id ≠ 0 ∧ new_bid_price ≠ s.bid_price ∧ new_bid_price ≠ 0 then
    { s with intents := s.intents ++ [Intent.cancelOrder s.bid_id], bid_id := 0 }
  else s

/-- Ask-cancel stage of `on_order_book_update_message`, lines 128-130:
```
if self.ask_id != 0 and new_ask_price not in (self.ask_price, 0):
    self.send_cancel_order(self.ask_id)
    self.ask_id = 0
```
-/
def cancelAskStage (s : EngState) (new_ask_price : Int) : EngState :=
  if s.ask_id ≠ 0 ∧ new_ask_price ≠ s.ask_price ∧ new_ask_price ≠ 0 then
    { s with intents := s.intents ++ [Intent.cancelOrder s.ask_id], ask_id := 0 }
  else s

/-- Bid-insert stage of `on_order_book_update_message`, lines 132-136
(`self.BID_LOT_SIZE` is `10`, set in `__init__` and never reassigned):
```
if self.bid_id == 0 and new_bid_price != 0 and self.position <= POSITION_LIMIT - (LOT_SIZE * len(self.bids) + LOT_SIZE):
    self.bid_id = next(self.order_ids)
    self.bid_price = new_bid_price
    self.send_insert_order(self.bid_id, Side.BUY, new_bid_price, self.BID_LOT_SIZE, Lifespan.GOOD_FOR_DAY)
    self.bids.add(self.bid_id)
```
-/
def insertBidStage (s : EngState) (new_bid_price : Int) : EngState :=
  if s.bid_id = 0 ∧ new_bid_price ≠ 0 ∧
      s.position ≤ POSITION_LIMIT - (LOT_SIZE * s.bids.length + LOT_SIZE) then
    { s with
      bid_id := s.next_order_id
      bid_price := new_bid_price
      intents := s.intents ++ [Intent.insertOrder s.next_order_id Side.buy new_bid_price 10]
      bids := s.bids.insert s.next_order_id
      next_order_id := s.next_order_id + 1 }
  else s

/-- Ask-insert stage of `on_order_book_update_message`, lines 138-142
(symmetric to `insertBidStage`, `self.ASK_LOT_SIZE` is `10`). -/
def insertAskStage (s : EngState) (new_ask_price : Int) : EngState :=
  if s.ask_id = 0 ∧ new_ask_price ≠ 0 ∧
      s.position ≥ -POSITION_LIMIT + (LOT_SIZE * s.asks.length + LOT_SIZE) then
    { s with
      ask_id := s.next_order_id
      ask_price := new_ask_price
      intents := s.intents ++ [Intent.insertOrder s.next_order_id Side.sell new_ask_price 10]
      asks := s.asks.insert s.next_order_id
      next_order_id := s.next_order_id + 1 }
  else s

/-- Order-management half of `on_order_book_update_message` (lines 125-142),
taking the two freshly computed prices `new_bid_price`, `new_ask_price` from
lines 122-123 as inputs.  The real-valued computation producing them is
embedded separately (`newBidPrice`/`newAskPrice` below); here the prices are
universally quantified so every pricer output is covered. -/
def on_order_book_update_message (s : EngState) (new_bid_price new_ask_price : Int) :
    EngState :=
  insertAskStage
    (insertBidStage (cancelAskStage (cancelBidStage s new_bid_price) new_ask_price)
      new_bid_price)
    new_ask_price

/-- An inbound event, as delivered by the (out-of-scope) transport layer.
`bookUpdate` carries the two prices the pricer computes for that update. -/
inductive Ev where
  | bookUpdate (new_bid_price new_ask_price : Int)
  | fill (id : Nat) (price : Int) (volume : Nat)
  | status (id : Nat) (fill_volume remaining_volume fees : Int)
  | hedgeFill (id : Nat) (price : Int) (volume : Nat)
  | error (id : Nat)
deriving DecidableEq, Repr

/-- Dispatch of one inbound event to its handler. -/
def stepEv (s : EngState) : Ev → EngState
  | Ev.bookUpdate nb na => on_order_book_update_message s nb na
  | Ev.fill id p v => on_order_filled_message s id p v
  | Ev.status id fv rv fees => on_order_status_message s id fv rv fees
  | Ev.hedgeFill id p v => on_hedge_filled_message s id p v
  | Ev.error id => on_error_message s id

/-- Ghost environment state: the remaining fillable volume of each inserted
order, as maintained by the venue.  This is not part of the engine's Python
state; it expresses the environment assumption (claim C2) that fills for an
order never exceed its inserted size. -/
def RemMap := Nat → Nat

/-- Initial ghost map: nothing inserted yet. -/
def rem0 : RemMap := fun _ => 0

/-- Ghost update of the remaining-volume map: a book update sets the
remaining volume of each freshly inserted order to its inserted size `10`; a
fill for `id` consumes `volume` of it; nothing else changes it. -/
def remStep (s : EngState) (r : RemMap) : Ev → RemMap
  | Ev.bookUpdate nb na =>
    let s' := on_order_book_update_message s nb na
    fun id =>
      if (id ∈ s'.bids ∧ id ∉ s.bids) ∨ (id ∈ s'.asks ∧ id ∉ s.asks) then 10 else r id
  | Ev.fill id _ volume => fun j => if j = id then r id - volume else r j
  | _ => r

/-- Environment validity of an event (the hypotheses of claim C2): every fill
is for a tracked live order and never exceeds the order's remaining volume.
All other events are unconstrained. -/
def ValidEv (s : EngState) (r : RemMap) : Ev → Prop
  | Ev.fill id _ volume => (id ∈ s.bids ∨ id ∈ s.asks) ∧ volume ≤ r id
  | _ => True

instance (s : EngState) (r : RemMap) (e : Ev) : Decidable (ValidEv s r e) :=
  match e with
  | Ev.bookUpdate _ _ => Decidable.isTrue trivial
  | Ev.fill id _ volume =>
    inferInstanceAs (Decidable ((id ∈ s.bids ∨ id ∈ s.asks) ∧ volume ≤ r id))
  | Ev.status _ _ _ _ => Decidable.isTrue trivial
  | Ev.hedgeFill _ _ _ => Decidable.isTrue trivial
  | Ev.error _ => Decidable.isTrue trivial

/-- Reachability of an engine state (paired with the ghost remaining-volume
map) from the freshly initialised engine under environment-valid events. -/
inductive Reachable : EngState → RemMap → Prop where
  | init : Reachable initState rem0
  | step {s r e} : Reachable s r → ValidEv s r e → Reachable (stepEv s e) (remStep s r e)

/-- Total remaining fillable volume of the orders in `l` under the ghost map. -/
def remSum (r : RemMap) (l : List Nat) : Int :=
  ((l.map r).sum : Nat)

/-- The inductive invariant for the position-limit argument (claim C2): the
tracked live id lists are duplicate-free, disjoint, below the id counter,
their remaining volumes are at most the inserted lot size, and the position
plus (resp. minus) the total outstanding bid (resp. ask) volume stays within
the limit. -/
structure Inv (s : EngState) (r : RemMap) : Prop where
  bids_nodup : s.bids.Nodup
  asks_nodup : s.asks.Nodup
  disj : ∀ id ∈ s.bids, id ∉ s.asks
  bids_lt : ∀ id ∈ s.bids, id < s.next_order_id
  asks_lt : ∀ id ∈ s.asks, id < s.next_order_id
  bids_cap : ∀ id ∈ s.bids, r id ≤ 10
  asks_cap : ∀ id ∈ s.asks, r id ≤ 10
  bid_bound : s.position + remSum r s.bids ≤ 100
  ask_bound : -100 ≤ s.position - remSum r s.asks

/-- Run a list of events from a state/ghost-map configuration. -/
def traceRun : List Ev → EngState × RemMap → EngState × RemMap
  | [], c => c
  | e :: es, c => traceRun es (stepEv c.1 e, remStep c.1 c.2 e)

/-- Stepwise environment-validity of a whole event trace. -/
def ValidTrace : EngState → RemMap → List Ev → Prop
  | _, _, [] => True
  | s, r, e :: es => ValidEv s r e ∧ ValidTrace (stepEv s e) (remStep s r e) es

instance instDecValidTrace : (s : EngState) → (r : RemMap) → (es : List Ev) →
    Decidable (ValidTrace s r es)
  | _, _, [] => Decidable.isTrue trivial
  | s, r, e :: es =>
    @instDecidableAnd _ _ _ (instDecValidTrace (stepEv s e) (remStep s r e) es)

/-!
## Time horizon (claim C3)

Lines 101-104 of `on_order_book_update_message`:
```
if self.T > 0:
    self.T -= 0.002
else:
    self.T = 0.000001
```
`self.T` is initialised to `1` (line 32) and mutated exactly once per
update of the `FUTURE` order book with a two-sided top of book.  The Python
`float` arithmetic is idealised by exact rational arithmetic.
-/

/-- One update of the time horizon `self.T` (lines 101-104). -/
def updateT (t : ℚ) : ℚ :=
  if t > 0 then t - 0.002 else 0.000001

/-- The value of `self.T` after `n` relevant market-data updates, starting
from the initial `self.T = 1` (line 32). -/
def Tafter (n : ℕ) : ℚ :=
  updateT^[n] 1

/-!
## Volatility estimation (claim C9)

Lines 96-112 of `on_order_book_update_message`.  The mid-price sample
`s = (bid_prices[0] + ask_prices[0]) / (2 * TICK_SIZE_IN_CENTS)` is an exact
dyadic-scaled rational of the two integer prices, so it is embedded in `ℚ`
(the Python `float` value of `s` lies within `2⁻²¹` of the exact rational
while neighbouring candidates differ by at least `1/200`, so `int(s)` and
admission agree with the exact model).
-/

/-- The mid-price sample of line 96: `(bid_prices[0] + ask_prices[0]) / (2 * TICK_SIZE_IN_CENTS)`. -/
def midSample (bidPrice0 askPrice0 : ℤ) : ℚ :=
  ((bidPrice0 : ℚ) + (askPrice0 : ℚ)) / (2 * (TICK_SIZE_IN_CENTS : ℚ))

/-- Python `int()` applied to a rational: truncation toward zero
(`Int.div` is T-division). -/
def pyInt (q : ℚ) : ℤ :=
  q.num.tdiv (q.den : ℤ)

/-- Lines 106-107: `if int(s) != 0: self.mid_prices.append(s)`. -/
def observeMid (mids : List ℚ) (s : ℚ) : List ℚ :=
  if pyInt s ≠ 0 then mids ++ [s] else mids

/-- `lookback = 10` (line 109). -/
def lookback : ℕ := 10

/-- `np.var(xs)`: the mean of squared deviations from the mean (the
population variance, with the `ddof = 0` default of NumPy), idealised over
`ℚ`. -/
def npVar (xs : List ℚ) : ℚ :=
  let mean := xs.sum / (xs.length : ℚ)
  (xs.map fun x => (x - mean) ^ 2).sum / (xs.length : ℚ)

/-- The slice `self.mid_prices[-1:-lookback - 1:-1]` of line 112: the last
`lookback` elements in reverse order. -/
def varSlice (mids : List ℚ) : List ℚ :=
  mids.reverse.take lookback

/-- The variance value used by the pricer: `var` is initialised to `0`
(line 99) and overwritten by `np.var(...)` only when
`len(self.mid_prices) >= lookback` (lines 111-112). -/
def handlerVar (mids : List ℚ) : ℚ :=
  if lookback ≤ mids.length then npVar (varSlice mids) else 0

/-- Written from the spec (§4.1): the `L` most recent samples of the window,
in chronological order. -/
def lastSamples (n : ℕ) (mids : List ℚ) : List ℚ :=
  mids.drop (mids.length - n)

/-- Written from the spec (§4.1): the population variance (not the unbiased
estimator) of a list of samples. -/
def populationVariance (xs : List ℚ) : ℚ :=
  (xs.map fun x => (x - xs.sum / (xs.length : ℚ)) ^ 2).sum / (xs.length : ℚ)

/-!
## Reservation pricing (claim C8)

Lines 96-123 of `on_order_book_update_message`.  The Python `float`
arithmetic (including `math.log`) is idealised by exact real arithmetic,
hence this section lives in `ℝ` and is noncomputable.
-/

/-- `gamma = 0.05` (line 98). -/
noncomputable def gamma : ℝ := 0.05

/-- `k = 1` (line 100). -/
noncomputable def liquidityK : ℝ := 1

/-- Line 96: `s = (bid_prices[0] + ask_prices[0]) / (2 * TICK_SIZE_IN_CENTS)`. -/
noncomputable def midPriceS (bidPrice0 askPrice0 : ℤ) : ℝ :=
  ((bidPrice0 : ℝ) + (askPrice0 : ℝ)) / (2 * (TICK_SIZE_IN_CENTS : ℝ))

/-- Line 116: `r = s - (q * gamma * var * self.T)`. -/
noncomputable def reservationPrice (s : ℝ) (q : ℤ) (varEst T : ℝ) : ℝ :=
  s - ((q : ℝ) * gamma * varEst * T)

/-- Line 119: `delta = (gamma * var * self.T + (2 / gamma * math.log(1 + (gamma / k))))`. -/
noncomputable def optimalDelta (varEst T : ℝ) : ℝ :=
  gamma * varEst * T + 2 / gamma * Real.log (1 + gamma / liquidityK)

/-- Line 122: `new_bid_price = math.ceil((r - delta / 2)) * TICK_SIZE_IN_CENTS`. -/
noncomputable def newBidPrice (bidPrice0 askPrice0 q : ℤ) (varEst T : ℝ) : ℤ :=
  ⌈reservationPrice (midPriceS bidPrice0 askPrice0) q varEst T - optimalDelta varEst T / 2⌉ *
    TICK_SIZE_IN_CENTS

/-- Line 123: `new_ask_price = math.ceil((r + delta / 2)) * TICK_SIZE_IN_CENTS`. -/
noncomputable def newAskPrice (bidPrice0 askPrice0 q : ℤ) (varEst T : ℝ) : ℤ :=
  ⌈reservationPrice (midPriceS bidPrice0 askPrice0) q varEst T + optimalDelta varEst T / 2⌉ *
    TICK_SIZE_IN_CENTS

/-- Written from the spec (§4.2): mid price `s = (b + a) / (2 * tickSize)`. -/
noncomputable def specMidPrice (b a : ℤ) : ℝ :=
  ((b : ℝ) + (a : ℝ)) / (2 * (TICK_SIZE_IN_CENTS : ℝ))

/-- Written from the spec (§4.2): reservation price `r = s − q·γ·v·T`. -/
noncomputable def specReservation (b a q : ℤ) (v T : ℝ) : ℝ :=
  specMidPrice b a - (q : ℝ) * gamma * v * T

/-- Written from the spec (§4.2): full spread `δ = γ·v·T + (2/γ)·ln(1 + γ/k)`. -/
noncomputable def specSpread (v T : ℝ) : ℝ :=
  gamma * v * T + (2 / gamma) * Real.log (1 + gamma / liquidityK)

/-- Written from the spec (§4.2): `rawBid = r − δ/2`, quantised by rounding
up (`ceil`) then scaling by the tick size. -/
noncomputable def specBidQuote (b a q : ℤ) (v T : ℝ) : ℤ :=
  ⌈specReservation b a q v T - specSpread v T / 2⌉ * TICK_SIZE_IN_CENTS

/-- Written from the spec (§4.2): `rawAsk = r + δ/2`, quantised by rounding
up (`ceil`) then scaling by the tick size. -/
noncomputable def specAskQuote (b a q : ℤ) (v T : ℝ) : ℤ :=
  ⌈specReservation b a q v T + specSpread v T / 2⌉ * TICK_SIZE_IN_CENTS

/-!
## Concrete traces used in the claim analyses
-/

/-- Event trace for claim C1: quote a bid, fill it fully, clear it, quote a
second bid, fill it fully.  Every fill is for a tracked order and within its
inserted size; no hedge order is ever issued along the way. -/
def c1Events : List Ev :=
  [Ev.bookUpdate 100 0, Ev.fill 1 100 10, Ev.status 1 10 0 0,
   Ev.bookUpdate 100 0, Ev.fill 2 100 10]

/-- Final configuration of the C1 trace. -/
def c1Config : EngState × RemMap :=
  traceRun c1Events (initState, rem0)

/-- State for claim C4 (bid slot): a live bid at price 500 (id 1), then a
book update whose freshly computed bid price is 600; no
status/acknowledgement event occurs anywhere in the trace. -/
def c4State : EngState :=
  stepEv (stepEv initState (Ev.bookUpdate 500 0)) (Ev.bookUpdate 600 0)

/-- State for claim C4 (ask slot): a live ask at price 500 (id 1), then a
book update whose freshly computed ask price is 600; no
status/acknowledgement event occurs anywhere in the trace. -/
def c4StateAsk : EngState :=
  stepEv (stepEv initState (Ev.bookUpdate 0 500)) (Ev.bookUpdate 0 600)

/-- State for claim C5: a live bid (id 1) filled for 5 lots, which makes the
engine issue a hedge order (id 2); no hedge-fill acknowledgement has
arrived. -/
def c5State : EngState :=
  stepEv (stepEv initState (Ev.bookUpdate 100 0)) (Ev.fill 1 100 5)

/-- Fold a list of `(price, signedVolume)` fills into the exposure ledger
(claim C7). -/
def applyFills (E : Exposure) (fills : List (Int × Int)) : Exposure :=
  fills.foldl (fun e pv => ledgerUpdate e pv.1 pv.2) E

end ASModel

namespace MomentumArbitrage6

/-!
## The archive variant `src/archive/momentumArbitrage6.py`

Only the hedge-accounting fragments cited by claim C5 are embedded: the state
fields of `__init__` (line 52) that they touch, the hedge-issue blocks of
`on_order_filled_message` (lines 160-165 and 174-179, abstracted over the
momentum-scaled `hedge_volume` computed just before them), and
`on_hedge_filled_message` (lines 70-88; lines 87-88 only print).
-/

/-- The hedge-accounting state of the variant. -/
structure MState where
  position : Int
  hedge_position : Int
  pending_hedge_position : Int
  hedge_bids : List Nat
  hedge_asks : List Nat
  next_order_id : Nat
  intents : List ASModel.Intent
deriving DecidableEq, Repr

/-- `on_hedge_filled_message` of the variant (lines 80-85):
```
if client_order_id in self.hedge_bids:
    self.hedge_position += volume
    self.pending_hedge_position -= volume
elif client_order_id in self.hedge_asks:
    self.hedge_position -= volume
    self.pending_hedge_position += volume
```
-/
def on_hedge_filled_message (s : MState) (client_order_id : Nat) (price : Int)
    (volume : Nat) : MState :=
  if client_order_id ∈ s.hedge_bids then
    { s with
      hedge_position := s.hedge_position + volume
      pending_hedge_position := s.pending_hedge_position - volume }
  else if client_order_id ∈ s.hedge_asks then
    { s with
      hedge_position := s.hedge_position - volume
      pending_hedge_position := s.pending_hedge_position + volume }
  else s

/-- Hedge-ask issue block of `on_order_filled_message` (lines 160-165),
run after a bid fill with the momentum-scaled `hedge_volume`:
```
potential_total_hedge = self.hedge_position + self.pending_hedge_position - hedge_volume
if hedge_volume != 0 and potential_total_hedge >= -POSITION_LIMIT:
    order_id = next(self.order_ids)
    self.pending_hedge_position -= hedge_volume
    self.send_hedge_order(order_id, Side.ASK, MIN_BID_NEAREST_TICK, hedge_volume)
    self.hedge_asks.add(order_id)
```
-/
def issueHedgeAsk (s : MState) (hedge_volume : Int) : MState :=
  if hedge_volume ≠ 0 ∧ s.hedge_position + s.pending_hedge_position - hedge_volume ≥ -100 then
    { s with
      next_order_id := s.next_order_id + 1
      pending_hedge_position := s.pending_hedge_position - hedge_volume
      intents := s.intents ++
        [ASModel.Intent.hedgeOrder s.next_order_id ASModel.Side.sell
          ASModel.MIN_BID_NEAREST_TICK hedge_volume]
      hedge_asks := s.hedge_asks.insert s.next_order_id }
  else s

/-- Hedge-bid issue block of `on_order_filled_message` (lines 174-179),
run after an ask fill, symmetric to `issueHedgeAsk`. -/
def issueHedgeBid (s : MState) (hedge_volume : Int) : MState :=
  if hedge_volume ≠ 0 ∧ s.hedge_position + s.pending_hedge_position + hedge_volume ≤ 100 then
    { s with
      next_order_id := s.next_order_id + 1
      pending_hedge_position := s.pending_hedge_position + hedge_volume
      intents := s.intents ++
        [ASModel.Intent.hedgeOrder s.next_order_id ASModel.Side.buy
          ASModel.MAX_ASK_NEAREST_TICK hedge_volume]
      hedge_bids := s.hedge_bids.insert s.next_order_id }
  else s

end MomentumArbitrage6

namespace ASModel

/-!
## Helper lemmas
-/

theorem applyHedge_position (s : EngState) : (applyHedge s).position = s.position := by
  unfold applyHedge
  split_ifs <;> rfl

theorem applyHedge_bids (s : EngState) : (applyHedge s).bids = s.bids := by
  unfold applyHedge
  split_ifs <;> rfl

theorem applyHedge_asks (s : EngState) : (applyHedge s).asks = s.asks := by
  unfold applyHedge
  split_ifs <;> rfl

theorem applyHedge_next_le (s : EngState) :
    s.next_order_id ≤ (applyHedge s).next_order_id := by
  unfold applyHedge
  split_ifs <;> simp

theorem cancelBidStage_bids (s : EngState) (nb : Int) :
    (cancelBidStage s nb).bids = s.bids := by
  unfold cancelBidStage; split_ifs <;> rfl

theorem cancelBidStage_asks (s : EngState) (nb : Int) :
    (cancelBidStage s nb).asks = s.asks := by
  unfold cancelBidStage; split_ifs <;> rfl

theorem cancelBidStage_position (s : EngState) (nb : Int) :
    (cancelBidStage s nb).position = s.position := by
  unfold cancelBidStage; split_ifs <;> rfl

theorem cancelBidStage_next (s : EngState) (nb : Int) :
    (cancelBidStage s nb).next_order_id = s.next_order_id := by
  unfold cancelBidStage; split_ifs <;> rfl

theorem cancelBidStage_ask_id (s : EngState) (nb : Int) :
    (cancelBidStage s nb).ask_id = s.ask_id := by
  unfold cancelBidStage; split_ifs <;> rfl

theorem cancelBidStage_ask_price (s : EngState) (nb : Int) :
    (cancelBidStage s nb).ask_price = s.ask_price := by
  unfold cancelBidStage; split_ifs <;> rfl

theorem cancelBidStage_intents_mono (s : EngState) (nb : Int) :
    ∃ tl, (cancelBidStage s nb).intents = s.intents ++ tl := by
  unfold cancelBidStage
  split_ifs
  · exact ⟨_, rfl⟩
  · exact ⟨[], by simp⟩

theorem cancelAskStage_bids (s : EngState) (na : Int) :
    (cancelAskStage s na).bids = s.bids := by
  unfold cancelAskStage; split_ifs <;> rfl

theorem cancelAskStage_asks (s : EngState) (na : Int) :
    (cancelAskStage s na).asks = s.asks := by
  unfold cancelAskStage; split_ifs <;> rfl

theorem cancelAskStage_position (s : EngState) (na : Int) :
    (cancelAskStage s na).position = s.position := by
  unfold cancelAskStage; split_ifs <;> rfl

theorem cancelAskStage_next (s : EngState) (na : Int) :
    (cancelAskStage s na).next_order_id = s.next_order_id := by
  unfold cancelAskStage; split_ifs <;> rfl

theorem cancelAskStage_bid_id (s : EngState) (na : Int) :
    (cancelAskStage s na).bid_id = s.bid_id := by
  unfold cancelAskStage; split_ifs <;> rfl

theorem cancelAskStage_intents_mono (s : EngState) (na : Int) :
    ∃ tl, (cancelAskStage s na).intents = s.intents ++ tl := by
  unfold cancelAskStage
  split_ifs
  · exact ⟨_, rfl⟩
  · exact ⟨[], by simp⟩

theorem insertBidStage_intents_mono (s : EngState) (nb : Int) :
    ∃ tl, (insertBidStage s nb).intents = s.intents ++ tl := by
  unfold insertBidStage
  split_ifs
  · exact ⟨_, rfl⟩
  · exact ⟨[], by simp⟩

theorem insertAskStage_intents_mono (s : EngState) (na : Int) :
    ∃ tl, (insertAskStage s na).intents = s.intents ++ tl := by
  unfold insertAskStage
  split_ifs
  · exact ⟨_, rfl⟩
  · exact ⟨[], by simp⟩

theorem insertAskStage_bids (s : EngState) (na : Int) :
    (insertAskStage s na).bids = s.bids := by
  unfold insertAskStage; split_ifs <;> rfl

theorem insertBidStage_asks (s : EngState) (nb : Int) :
    (insertBidStage s nb).asks = s.asks := by
  unfold insertBidStage; split_ifs <;> rfl

theorem insertBidStage_position (s : EngState) (nb : Int) :
    (insertBidStage s nb).position = s.position := by
  unfold insertBidStage; split_ifs <;> rfl

theorem insertBidStage_ask_id (s : EngState) (nb : Int) :
    (insertBidStage s nb).ask_id = s.ask_id := by
  unfold insertBidStage; split_ifs <;> rfl

theorem insertBidStage_next_or (s : EngState) (nb : Int) :
    (insertBidStage s nb).next_order_id = s.next_order_id ∨
    (insertBidStage s nb).next_order_id = s.next_order_id + 1 := by
  unfold insertBidStage
  split_ifs
  · exact Or.inr rfl
  · exact Or.inl rfl

theorem insertAskStage_mem_asks (s : EngState) (na : Int) {id : Nat} (h : id ∈ s.asks) :
    id ∈ (insertAskStage s na).asks := by
  unfold insertAskStage
  split_ifs
  · simpa using List.mem_insert_of_mem h
  · exact h

theorem insertAskStage_bid_id (s : EngState) (na : Int) :
    (insertAskStage s na).bid_id = s.bid_id := by
  unfold insertAskStage; split_ifs <;> rfl

theorem insertBidStage_mem_bids (s : EngState) (nb : Int) {id : Nat} (h : id ∈ s.bids) :
    id ∈ (insertBidStage s nb).bids := by
  unfold insertBidStage
  split_ifs
  · simpa using List.mem_insert_of_mem h
  · exact h

theorem on_order_status_message_bids (s : EngState) (id : Nat) (fv fees : Int) :
    (on_order_status_message s id fv 0 fees).bids = s.bids.erase id := by
  unfold on_order_status_message
  split_ifs with h1 h2 h3 <;> first | rfl | omega

theorem on_order_status_message_asks (s : EngState) (id : Nat) (fv fees : Int) :
    (on_order_status_message s id fv 0 fees).asks = s.asks.erase id := by
  unfold on_order_status_message
  split_ifs with h1 h2 h3 <;> first | rfl | omega

theorem traceRun_reachable (es : List Ev) (s : EngState) (r : RemMap)
    (h : Reachable s r) (hv : ValidTrace s r es) :
    Reachable (traceRun es (s, r)).1 (traceRun es (s, r)).2 := by
  induction es generalizing s r with
  | nil => exact h
  | cons e es ih => exact ih _ _ (Reachable.step h hv.1) hv.2

/-!
## Claim C6 — error handling
-/

/-- Claim C6: an error event with a non-zero order id that is tracked —
in the primary sets or in the hedge sets (given the hedge id is not also a
primary slot/set id, which holds in every reachable state since ids are
unique) — leaves the engine in exactly the state that
`on_order_status_message(id, 0, 0, 0)` produces, and an error event for a
zero or untracked id leaves the state unchanged. -/
theorem error_event_status_equiv (s : EngState) (id : Nat) :
    (id = 0 → on_error_message s id = s) ∧
    (id ≠ 0 → id ∈ s.bids ∨ id ∈ s.asks →
      on_error_message s id = on_order_status_message s id 0 0 0) ∧
    (id ∉ s.bids → id ∉ s.asks → on_error_message s id = s) ∧
    (id ≠ 0 → id ∈ s.hedge_bids ∨ id ∈ s.hedge_asks → id ∉ s.bids → id ∉ s.asks →
      id ≠ s.bid_id → id ≠ s.ask_id →
      on_error_message s id = on_order_status_message s id 0 0 0) := by
  refine ⟨fun h0 => ?_, fun hnz htr => ?_, fun hb ha => ?_, fun hnz _ hb ha hbid hask => ?_⟩
  · simp [on_error_message, h0]
  · simp [on_error_message, hnz, htr]
  · simp [on_error_message, hb, ha]
  · have hlhs : on_error_message s id = s := by simp [on_error_message, hb, ha]
    have hrhs : on_order_status_message s id 0 0 0 = s := by
      simp [on_order_status_message, hbid, hask, List.erase_of_not_mem hb,
        List.erase_of_not_mem ha]
    rw [hlhs, hrhs]

/-- Witness for C6 at a concrete state: order id 7 tracked as a hedge bid,
distinct from every primary id. -/
theorem error_event_status_equiv_witness :
    on_error_message { initState with hedge_bids := [7] } 7 =
      on_order_status_message { initState with hedge_bids := [7] } 7 0 0 0 :=
  (error_event_status_equiv { initState with hedge_bids := [7] } 7).2.2.2
    (by decide) (Or.inl (by decide)) (by decide) (by decide) (by decide) (by decide)

/-!
## Claim C10 — untracked fills
-/

/-- Claim C10: a fill whose order id is in neither tracked set leaves the
position unchanged, merges the fill volume into the exposure ledger with
positive (buy) sign, and still runs the hedge-sizing block on the unchanged
position. -/
theorem untracked_fill_behavior (s : EngState) (id : Nat) (price : Int) (volume : Nat)
    (hb : id ∉ s.bids) (ha : id ∉ s.asks) :
    on_order_filled_message s id price volume =
      applyHedge { s with orders_history := ledgerUpdate s.orders_history price (volume : Int) } ∧
    (on_order_filled_message s id price volume).position = s.position := by
  have h1 : on_order_filled_message s id price volume =
      applyHedge { s with orders_history := ledgerUpdate s.orders_history price (volume : Int) } := by
    simp [on_order_filled_message, hb, ha]
  exact ⟨h1, by rw [h1, applyHedge_position]⟩

/-- Witness for C10: a fill for the never-issued order id 1 from the initial
state. -/
theorem untracked_fill_behavior_witness :
    on_order_filled_message initState 1 100 5 =
      applyHedge { initState with
        orders_history := ledgerUpdate initState.orders_history 100 (5 : Int) } ∧
    (on_order_filled_message initState 1 100 5).position = initState.position :=
  untracked_fill_behavior initState 1 100 5 (by decide) (by decide)

/-!
## Claim C7 — exposure-ledger round trip
-/

theorem ledgerUpdate_volume (E : Exposure) (p v : Int) :
    (ledgerUpdate E p v).volume = E.volume + v := by
  unfold ledgerUpdate
  split_ifs with h1 h2 h3 <;> simp <;> omega

theorem ledgerUpdate_price_zero (E : Exposure) (p v : Int)
    (hE : E.volume = 0 → E.price = 0) (h : (ledgerUpdate E p v).volume = 0) :
    (ledgerUpdate E p v).price = 0 := by
  have hv := ledgerUpdate_volume E p v
  unfold ledgerUpdate at h ⊢
  split_ifs at h ⊢ with h1 h2 h3 <;> simp_all <;> omega

theorem applyFills_volume (fills : List (Int × Int)) (E : Exposure) :
    (applyFills E fills).volume = E.volume + (fills.map Prod.snd).sum := by
  induction fills generalizing E with
  | nil => simp [applyFills]
  | cons f fs ih =>
    simp only [applyFills, List.foldl_cons, List.map_cons, List.sum_cons]
    rw [show List.foldl (fun e pv => ledgerUpdate e pv.1 pv.2) (ledgerUpdate E f.1 f.2) fs =
      applyFills (ledgerUpdate E f.1 f.2) fs from rfl, ih, ledgerUpdate_volume]
    ring

theorem applyFills_price_zero (fills : List (Int × Int)) (E : Exposure)
    (hE : E.volume = 0 → E.price = 0) :
    (applyFills E fills).volume = 0 → (applyFills E fills).price = 0 := by
  induction fills generalizing E with
  | nil => simpa [applyFills] using hE
  | cons f fs ih =>
    intro h
    simp only [applyFills, List.foldl_cons] at h ⊢
    exact ih (ledgerUpdate E f.1 f.2)
      (fun hv => ledgerUpdate_price_zero E f.1 f.2 hE hv) h

/-- Claim C7: starting from the empty exposure record, any sequence of fills
whose signed volumes sum to zero leaves `E.volume = 0` and `E.price = 0`. -/
theorem exposure_round_trip (fills : List (Int × Int))
    (h : (fills.map Prod.snd).sum = 0) :
    applyFills { price := 0, volume := 0 } fills = { price := 0, volume := 0 } := by
  have hvol : (applyFills { price := 0, volume := 0 } fills).volume = 0 := by
    rw [applyFills_volume, h]
    rfl
  have hpr : (applyFills { price := 0, volume := 0 } fills).price = 0 :=
    applyFills_price_zero fills { price := 0, volume := 0 } (fun _ => rfl) hvol
  cases hfin : applyFills { price := 0, volume := 0 } fills
  rw [hfin] at hvol hpr
  simp_all

/-- Witness for C7: a bid fill of 5 at 100 offset by an ask fill of 5 at
102. -/
theorem exposure_round_trip_witness :
    applyFills { price := 0, volume := 0 } [(100, 5), (102, -5)] =
      { price := 0, volume := 0 } :=
  exposure_round_trip [(100, 5), (102, -5)] (by decide)

/-!
## Claim C3 — time horizon
-/

theorem Tafter_closed_form (n : ℕ) (h : n ≤ 500) :
    Tafter n = 1 - (n : ℚ) / 500 := by
  induction n with
  | zero => simp [Tafter]
  | succ n ih =>
    have hn : n ≤ 500 := Nat.le_of_succ_le h
    have hlt : n < 500 := Nat.lt_of_succ_le h
    have hiter : Tafter (n + 1) = updateT (Tafter n) := by
      simp [Tafter, Function.iterate_succ_apply']
    rw [hiter, ih hn, updateT]
    have hpos : (1 : ℚ) - (n : ℚ) / 500 > 0 := by
      have hc : (n : ℚ) < 500 := by exact_mod_cast hlt
      have : (n : ℚ) / 500 < 1 := by
        rw [div_lt_one (by norm_num : (0 : ℚ) < 500)]
        exact hc
      linarith
    rw [if_pos hpos]
    push_cast
    ring_nf

/-- Counterexample for claim C3: after 500 relevant market-data updates the
time horizon `self.T` is exactly `0` (in the exact-arithmetic idealisation of
the float subtraction), so the invariant `0 < T` fails in a reachable state:
the floor to `0.000001` is applied only on the following update. -/
theorem time_horizon_reaches_zero :
    Tafter 500 = 0 ∧ ¬ (0 < Tafter 500) := by
  have h : Tafter 500 = 0 := by
    rw [Tafter_closed_form 500 le_rfl]
    norm_num
  exact ⟨h, by rw [h]; exact lt_irrefl 0⟩

/-- Amended claim C3: `T` starts at 1; an update decrements `T` by `0.002`
whenever `T > 0` and resets `T` to `0.000001` whenever `T ≤ 0`; consequently
every reachable `T` lies in the half-open interval `(-0.002, 1]` (but `T = 0`
and small negative values are reachable, so `0 < T` does not hold in every
state). -/
theorem time_horizon_amended :
    Tafter 0 = 1 ∧
    (∀ t : ℚ, 0 < t → updateT t = t - 0.002) ∧
    (∀ t : ℚ, t ≤ 0 → updateT t = 0.000001) ∧
    (∀ n : ℕ, -0.002 < Tafter n ∧ Tafter n ≤ 1) := by
  refine ⟨rfl, fun t ht => by rw [updateT, if_pos ht], fun t ht => by
    rw [updateT, if_neg (not_lt.mpr ht)], fun n => ?_⟩
  induction n with
  | zero =>
    constructor <;> norm_num [Tafter]
  | succ n ih =>
    have hiter : Tafter (n + 1) = updateT (Tafter n) := by
      simp [Tafter, Function.iterate_succ_apply']
    rw [hiter, updateT]
    split_ifs with hc
    · exact ⟨by linarith, by linarith [ih.2]⟩
    · constructor <;> norm_num

/-- Witness for the amended C3 at concrete inputs `t = 1` and `t = 0`. -/
theorem time_horizon_amended_witness :
    updateT 1 = 1 - 0.002 ∧ updateT 0 = 0.000001 ∧ (-0.002 < Tafter 1 ∧ Tafter 1 ≤ 1) :=
  ⟨time_horizon_amended.2.1 1 (by norm_num),
   time_horizon_amended.2.2.1 0 (by norm_num),
   time_horizon_amended.2.2.2 1⟩

/-!
## Claim C1 — hedge deadband
-/

/-- Claim C1 fails on the code: the concrete C1 trace reaches (with only
environment-valid events, and without a single hedge order ever being issued,
so no hedge order is in flight) a state with `position = 20` and
`hedge_position = 0`, violating `|confirmedHedge + position| ≤ lotSize`.
The deadband arithmetic of lines 183-187 clamps the hedge target with
`min 0`/`max 0` in the wrong direction, so no hedge is ever issued once
`|position| ≥ 10` — contradicting the comment on line 189 and the archive
variant's banding. -/
theorem hedge_deadband_violated :
    Reachable c1Config.1 c1Config.2 ∧
    c1Config.1.hedge_bids = [] ∧ c1Config.1.hedge_asks = [] ∧
    c1Config.1.hedge_position = 0 ∧ c1Config.1.position = 20 ∧
    ¬ (|c1Config.1.hedge_position + c1Config.1.position| ≤ LOT_SIZE) := by
  have hh : c1Config.1.hedge_position = 0 := by decide
  have hp : c1Config.1.position = 20 := by decide
  refine ⟨?_, by decide, by decide, hh, hp, ?_⟩
  · exact traceRun_reachable c1Events initState rem0 Reachable.init (by decide)
  · rw [hh, hp]
    norm_num [LOT_SIZE]

/-!
## Claim C4 — cancel/replace semantics
-/

/-- Counterexample for claim C4, on both quote slots: from the initial
state, a book update quotes order 1 (bid at 500 in the first trace, ask at
500 in the second); a second book update computes price 600 for the same
side — with no status update (no cancel acknowledgement) anywhere in either
trace — and leaves the slot holding the fresh order id 2, not the cancelled
order id 1, with a new insert for that side already issued. -/
theorem cancel_slot_counterexample :
    (c4State.bid_id = 2 ∧ c4State.bid_id ≠ 1 ∧
     Intent.cancelOrder 1 ∈ c4State.intents ∧
     Intent.insertOrder 2 Side.buy 600 10 ∈ c4State.intents ∧
     1 ∈ c4State.bids) ∧
    (c4StateAsk.ask_id = 2 ∧ c4StateAsk.ask_id ≠ 1 ∧
     Intent.cancelOrder 1 ∈ c4StateAsk.intents ∧
     Intent.insertOrder 2 Side.sell 600 10 ∈ c4StateAsk.intents ∧
     1 ∈ c4StateAsk.asks) := by
  decide

/-- Bid-slot component of the amended claim C4. -/
theorem cancel_resets_bid_slot (s : EngState) (nb na : Int)
    (h0 : s.bid_id ≠ 0) (hne : nb ≠ s.bid_price) (hnz : nb ≠ 0)
    (hmem : s.bid_id ∈ s.bids) :
    (∃ tl, (on_order_book_update_message s nb na).intents =
      s.intents ++ Intent.cancelOrder s.bid_id :: tl) ∧
    s.bid_id ∈ (on_order_book_update_message s nb na).bids ∧
    (s.position ≤ POSITION_LIMIT - (LOT_SIZE * s.bids.length + LOT_SIZE) →
      (on_order_book_update_message s nb na).bid_id = s.next_order_id ∧
      Intent.insertOrder s.next_order_id Side.buy nb 10 ∈
        (on_order_book_update_message s nb na).intents) ∧
    (¬ s.position ≤ POSITION_LIMIT - (LOT_SIZE * s.bids.length + LOT_SIZE) →
      (on_order_book_update_message s nb na).bid_id = 0) ∧
    (∀ fv fees,
      (on_order_status_message (on_order_book_update_message s nb na) s.bid_id fv 0
        fees).bids =
      ((on_order_book_update_message s nb na).bids).erase s.bid_id) := by
  have hcb : cancelBidStage s nb =
      { s with intents := s.intents ++ [Intent.cancelOrder s.bid_id], bid_id := 0 } := by
    rw [cancelBidStage, if_pos ⟨h0, hne, hnz⟩]
  have hs2bid : (cancelAskStage (cancelBidStage s nb) na).bid_id = 0 := by
    rw [cancelAskStage_bid_id, hcb]
  have hs2bids : (cancelAskStage (cancelBidStage s nb) na).bids = s.bids := by
    rw [cancelAskStage_bids, cancelBidStage_bids]
  have hs2pos : (cancelAskStage (cancelBidStage s nb) na).position = s.position := by
    rw [cancelAskStage_position, cancelBidStage_position]
  have hs2next : (cancelAskStage (cancelBidStage s nb) na).next_order_id =
      s.next_order_id := by
    rw [cancelAskStage_next, cancelBidStage_next]
  have hbu : on_order_book_update_message s nb na =
      insertAskStage (insertBidStage (cancelAskStage (cancelBidStage s nb) na) nb) na := rfl
  refine ⟨?_, ?_, ?_, ?_, fun fv fees => on_order_status_message_bids _ _ _ _⟩
  · obtain ⟨tl, htl⟩ := cancelAskStage_intents_mono (cancelBidStage s nb) na
    obtain ⟨tl3, htl3⟩ :=
      insertBidStage_intents_mono (cancelAskStage (cancelBidStage s nb) na) nb
    obtain ⟨tl4, htl4⟩ :=
      insertAskStage_intents_mono (insertBidStage (cancelAskStage (cancelBidStage s nb) na) nb) na
    refine ⟨tl ++ tl3 ++ tl4, ?_⟩
    rw [hbu, htl4, htl3, htl, hcb]
    simp
  · rw [hbu, insertAskStage_bids]
    exact insertBidStage_mem_bids _ nb (by rw [hs2bids]; exact hmem)
  · intro hheadroom
    have hcond : (cancelAskStage (cancelBidStage s nb) na).bid_id = 0 ∧ nb ≠ 0 ∧
        (cancelAskStage (cancelBidStage s nb) na).position ≤ POSITION_LIMIT -
          (LOT_SIZE * (cancelAskStage (cancelBidStage s nb) na).bids.length + LOT_SIZE) := by
      refine ⟨hs2bid, hnz, ?_⟩
      rw [hs2pos, hs2bids]
      exact hheadroom
    have hins : insertBidStage (cancelAskStage (cancelBidStage s nb) na) nb =
        { cancelAskStage (cancelBidStage s nb) na with
          bid_id := (cancelAskStage (cancelBidStage s nb) na).next_order_id
          bid_price := nb
          intents := (cancelAskStage (cancelBidStage s nb) na).intents ++
            [Intent.insertOrder (cancelAskStage (cancelBidStage s nb) na).next_order_id
              Side.buy nb 10]
          bids := (cancelAskStage (cancelBidStage s nb) na).bids.insert
            (cancelAskStage (cancelBidStage s nb) na).next_order_id
          next_order_id := (cancelAskStage (cancelBidStage s nb) na).next_order_id + 1 } := by
      rw [insertBidStage, if_pos hcond]
    constructor
    · rw [hbu, insertAskStage_bid_id, hins]
      exact hs2next
    · obtain ⟨tl4, htl4⟩ :=
        insertAskStage_intents_mono
          (insertBidStage (cancelAskStage (cancelBidStage s nb) na) nb) na
      rw [hbu, htl4, hins]
      rw [show ({ cancelAskStage (cancelBidStage s nb) na with
          bid_id := (cancelAskStage (cancelBidStage s nb) na).next_order_id
          bid_price := nb
          intents := (cancelAskStage (cancelBidStage s nb) na).intents ++
            [Intent.insertOrder (cancelAskStage (cancelBidStage s nb) na).next_order_id
              Side.buy nb 10]
          bids := (cancelAskStage (cancelBidStage s nb) na).bids.insert
            (cancelAskStage (cancelBidStage s nb) na).next_order_id
          next_order_id := (cancelAskStage (cancelBidStage s nb) na).next_order_id + 1 } :
            EngState).intents =
          (cancelAskStage (cancelBidStage s nb) na).intents ++
            [Intent.insertOrder (cancelAskStage (cancelBidStage s nb) na).next_order_id
              Side.buy nb 10] from rfl, hs2next]
      simp
  · intro hheadroom
    have hcond : ¬ ((cancelAskStage (cancelBidStage s nb) na).bid_id = 0 ∧ nb ≠ 0 ∧
        (cancelAskStage (cancelBidStage s nb) na).position ≤ POSITION_LIMIT -
          (LOT_SIZE * (cancelAskStage (cancelBidStage s nb) na).bids.length + LOT_SIZE)) := by
      rw [hs2pos, hs2bids]
      intro hc
      exact hheadroom hc.2.2
    have hins : insertBidStage (cancelAskStage (cancelBidStage s nb) na) nb =
        cancelAskStage (cancelBidStage s nb) na := by
      rw [insertBidStage, if_neg hcond]
    rw [hbu, insertAskStage_bid_id, hins, hs2bid]

/-- Ask-slot component of the amended claim C4 (lines 128-130 and 138-142):
the ask cancel fires after the bid cancel, and the replacement ask insert
draws its id from the counter after a possible bid insert of the same
invocation, hence the `next_order_id`/`next_order_id + 1` disjunction. -/
theorem cancel_resets_ask_slot (s : EngState) (nb na : Int)
    (h0 : s.ask_id ≠ 0) (hne : na ≠ s.ask_price) (hnz : na ≠ 0)
    (hmem : s.ask_id ∈ s.asks) :
    (∃ pre tl, (on_order_book_update_message s nb na).intents =
      s.intents ++ pre ++ Intent.cancelOrder s.ask_id :: tl) ∧
    s.ask_id ∈ (on_order_book_update_message s nb na).asks ∧
    (s.position ≥ -POSITION_LIMIT + (LOT_SIZE * s.asks.length + LOT_SIZE) →
      ((on_order_book_update_message s nb na).ask_id = s.next_order_id ∨
        (on_order_book_update_message s nb na).ask_id = s.next_order_id + 1) ∧
      Intent.insertOrder (on_order_book_update_message s nb na).ask_id Side.sell na 10 ∈
        (on_order_book_update_message s nb na).intents) ∧
    (¬ s.position ≥ -POSITION_LIMIT + (LOT_SIZE * s.asks.length + LOT_SIZE) →
      (on_order_book_update_message s nb na).ask_id = 0) ∧
    (∀ fv fees,
      (on_order_status_message (on_order_book_update_message s nb na) s.ask_id fv 0
        fees).asks =
      ((on_order_book_update_message s nb na).asks).erase s.ask_id) := by
  have hca : (cancelBidStage s nb).ask_id ≠ 0 ∧ na ≠ (cancelBidStage s nb).ask_price ∧
      na ≠ 0 :=
    ⟨by rw [cancelBidStage_ask_id]; exact h0,
     by rw [cancelBidStage_ask_price]; exact hne, hnz⟩
  have hrec2 : cancelAskStage (cancelBidStage s nb) na =
      { cancelBidStage s nb with
        intents := (cancelBidStage s nb).intents ++
          [Intent.cancelOrder (cancelBidStage s nb).ask_id]
        ask_id := 0 } := by
    rw [cancelAskStage, if_pos hca]
  have hs2askid : (cancelAskStage (cancelBidStage s nb) na).ask_id = 0 := by
    rw [hrec2]
  have hs2asks : (cancelAskStage (cancelBidStage s nb) na).asks = s.asks := by
    rw [hrec2]
    show (cancelBidStage s nb).asks = s.asks
    exact cancelBidStage_asks s nb
  have hs2pos : (cancelAskStage (cancelBidStage s nb) na).position = s.position := by
    rw [hrec2]
    show (cancelBidStage s nb).position = s.position
    exact cancelBidStage_position s nb
  have hs2next : (cancelAskStage (cancelBidStage s nb) na).next_order_id =
      s.next_order_id := by
    rw [hrec2]
    show (cancelBidStage s nb).next_order_id = s.next_order_id
    exact cancelBidStage_next s nb
  have hs3askid :
      (insertBidStage (cancelAskStage (cancelBidStage s nb) na) nb).ask_id = 0 := by
    rw [insertBidStage_ask_id]
    exact hs2askid
  have hs3asks :
      (insertBidStage (cancelAskStage (cancelBidStage s nb) na) nb).asks = s.asks := by
    rw [insertBidStage_asks]
    exact hs2asks
  have hs3pos :
      (insertBidStage (cancelAskStage (cancelBidStage s nb) na) nb).position =
        s.position := by
    rw [insertBidStage_position]
    exact hs2pos
  have hbu : on_order_book_update_message s nb na =
      insertAskStage (insertBidStage (cancelAskStage (cancelBidStage s nb) na) nb) na := rfl
  refine ⟨?_, ?_, ?_, ?_, fun fv fees => on_order_status_message_asks _ _ _ _⟩
  · obtain ⟨p1, hp1⟩ := cancelBidStage_intents_mono s nb
    obtain ⟨t3, ht3⟩ :=
      insertBidStage_intents_mono (cancelAskStage (cancelBidStage s nb) na) nb
    obtain ⟨t4, ht4⟩ :=
      insertAskStage_intents_mono
        (insertBidStage (cancelAskStage (cancelBidStage s nb) na) nb) na
    have hs2int : (cancelAskStage (cancelBidStage s nb) na).intents =
        s.intents ++ p1 ++ [Intent.cancelOrder s.ask_id] := by
      rw [hrec2]
      show (cancelBidStage s nb).intents ++
          [Intent.cancelOrder (cancelBidStage s nb).ask_id] = _
      rw [hp1, cancelBidStage_ask_id]
    refine ⟨p1, t3 ++ t4, ?_⟩
    rw [hbu, ht4, ht3, hs2int]
    simp
  · rw [hbu]
    exact insertAskStage_mem_asks _ na (by rw [hs3asks]; exact hmem)
  · intro hheadroom
    have hcond :
        (insertBidStage (cancelAskStage (cancelBidStage s nb) na) nb).ask_id = 0 ∧
        na ≠ 0 ∧
        (insertBidStage (cancelAskStage (cancelBidStage s nb) na) nb).position ≥
          -POSITION_LIMIT + (LOT_SIZE *
            (insertBidStage (cancelAskStage (cancelBidStage s nb) na) nb).asks.length +
            LOT_SIZE) := by
      refine ⟨hs3askid, hnz, ?_⟩
      rw [hs3pos, hs3asks]
      exact hheadroom
    have hrec4 : insertAskStage (insertBidStage (cancelAskStage (cancelBidStage s nb) na) nb) na =
        { insertBidStage (cancelAskStage (cancelBidStage s nb) na) nb with
          ask_id := (insertBidStage (cancelAskStage (cancelBidStage s nb) na) nb).next_order_id
          ask_price := na
          intents := (insertBidStage (cancelAskStage (cancelBidStage s nb) na) nb).intents ++
            [Intent.insertOrder
              (insertBidStage (cancelAskStage (cancelBidStage s nb) na) nb).next_order_id
              Side.sell na 10]
          asks := (insertBidStage (cancelAskStage (cancelBidStage s nb) na) nb).asks.insert
            (insertBidStage (cancelAskStage (cancelBidStage s nb) na) nb).next_order_id
          next_order_id :=
            (insertBidStage (cancelAskStage (cancelBidStage s nb) na) nb).next_order_id +
              1 } := by
      rw [insertAskStage, if_pos hcond]
    constructor
    · rcases insertBidStage_next_or (cancelAskStage (cancelBidStage s nb) na) nb with
        hc2 | hc2
      · left
        rw [hbu, hrec4]
        show (insertBidStage (cancelAskStage (cancelBidStage s nb) na) nb).next_order_id =
          s.next_order_id
        rw [hc2, hs2next]
      · right
        rw [hbu, hrec4]
        show (insertBidStage (cancelAskStage (cancelBidStage s nb) na) nb).next_order_id =
          s.next_order_id + 1
        rw [hc2, hs2next]
    · rw [hbu, hrec4]
      show Intent.insertOrder
          (insertBidStage (cancelAskStage (cancelBidStage s nb) na) nb).next_order_id
          Side.sell na 10 ∈
        (insertBidStage (cancelAskStage (cancelBidStage s nb) na) nb).intents ++
          [Intent.insertOrder
            (insertBidStage (cancelAskStage (cancelBidStage s nb) na) nb).next_order_id
            Side.sell na 10]
      simp
  · intro hheadroom
    have hcond :
        ¬ ((insertBidStage (cancelAskStage (cancelBidStage s nb) na) nb).ask_id = 0 ∧
        na ≠ 0 ∧
        (insertBidStage (cancelAskStage (cancelBidStage s nb) na) nb).position ≥
          -POSITION_LIMIT + (LOT_SIZE *
            (insertBidStage (cancelAskStage (cancelBidStage s nb) na) nb).asks.length +
            LOT_SIZE)) := by
      intro hc
      apply hheadroom
      have hx := hc.2.2
      rw [hs3pos, hs3asks] at hx
      exact hx
    have hrec4 : insertAskStage
        (insertBidStage (cancelAskStage (cancelBidStage s nb) na) nb) na =
        insertBidStage (cancelAskStage (cancelBidStage s nb) na) nb := by
      rw [insertAskStage, if_neg hcond]
    rw [hbu, hrec4]
    exact hs3askid

/-- Amended claim C4, for either quote slot: when a slot is live (its id
non-zero and in the side's tracked live set) and the newly computed price for
that side differs from the resting price and is non-zero, a cancel for the
old order is issued and the slot is reset to `0` immediately — not held
until the acknowledgement; if the side's position headroom check passes, a
replacement insert is issued with a fresh id drawn from the counter in the
same invocation, before any acknowledgement (for the ask slot the fresh id
is `next_order_id + 1` when the bid insert of the same invocation fired
first); the cancelled id remains in the side's tracked live set, and is
removed from it only by a status update with zero remaining volume. -/
theorem cancel_resets_slot_immediately (s : EngState) (nb na : Int) :
    (s.bid_id ≠ 0 → nb ≠ s.bid_price → nb ≠ 0 → s.bid_id ∈ s.bids →
      (∃ tl, (on_order_book_update_message s nb na).intents =
        s.intents ++ Intent.cancelOrder s.bid_id :: tl) ∧
      s.bid_id ∈ (on_order_book_update_message s nb na).bids ∧
      (s.position ≤ POSITION_LIMIT - (LOT_SIZE * s.bids.length + LOT_SIZE) →
        (on_order_book_update_message s nb na).bid_id = s.next_order_id ∧
        Intent.insertOrder s.next_order_id Side.buy nb 10 ∈
          (on_order_book_update_message s nb na).intents) ∧
      (¬ s.position ≤ POSITION_LIMIT - (LOT_SIZE * s.bids.length + LOT_SIZE) →
        (on_order_book_update_message s nb na).bid_id = 0) ∧
      (∀ fv fees,
        (on_order_status_message (on_order_book_update_message s nb na) s.bid_id fv 0
          fees).bids =
        ((on_order_book_update_message s nb na).bids).erase s.bid_id)) ∧
    (s.ask_id ≠ 0 → na ≠ s.ask_price → na ≠ 0 → s.ask_id ∈ s.asks →
      (∃ pre tl, (on_order_book_update_message s nb na).intents =
        s.intents ++ pre ++ Intent.cancelOrder s.ask_id :: tl) ∧
      s.ask_id ∈ (on_order_book_update_message s nb na).asks ∧
      (s.position ≥ -POSITION_LIMIT + (LOT_SIZE * s.asks.length + LOT_SIZE) →
        ((on_order_book_update_message s nb na).ask_id = s.next_order_id ∨
          (on_order_book_update_message s nb na).ask_id = s.next_order_id + 1) ∧
        Intent.insertOrder (on_order_book_update_message s nb na).ask_id Side.sell na 10 ∈
          (on_order_book_update_message s nb na).intents) ∧
      (¬ s.position ≥ -POSITION_LIMIT + (LOT_SIZE * s.asks.length + LOT_SIZE) →
        (on_order_book_update_message s nb na).ask_id = 0) ∧
      (∀ fv fees,
        (on_order_status_message (on_order_book_update_message s nb na) s.ask_id fv 0
          fees).asks =
        ((on_order_book_update_message s nb na).asks).erase s.ask_id)) :=
  ⟨fun h0 hne hnz hmem => cancel_resets_bid_slot s nb na h0 hne hnz hmem,
   fun h0 hne hnz hmem => cancel_resets_ask_slot s nb na h0 hne hnz hmem⟩

/-- Witness for the amended C4 at concrete pre-states for both slots: a live
bid (order 1 at 500) re-priced to 600, and a live ask (order 1 at 500)
re-priced to 600. -/
theorem cancel_resets_slot_immediately_witness :
    ((∃ tl, (on_order_book_update_message (stepEv initState (Ev.bookUpdate 500 0)) 600
        0).intents =
      (stepEv initState (Ev.bookUpdate 500 0)).intents ++
        Intent.cancelOrder (stepEv initState (Ev.bookUpdate 500 0)).bid_id :: tl) ∧
     (stepEv initState (Ev.bookUpdate 500 0)).bid_id ∈
      (on_order_book_update_message (stepEv initState (Ev.bookUpdate 500 0)) 600 0).bids) ∧
    ((∃ pre tl, (on_order_book_update_message (stepEv initState (Ev.bookUpdate 0 500)) 0
        600).intents =
      (stepEv initState (Ev.bookUpdate 0 500)).intents ++ pre ++
        Intent.cancelOrder (stepEv initState (Ev.bookUpdate 0 500)).ask_id :: tl) ∧
     (stepEv initState (Ev.bookUpdate 0 500)).ask_id ∈
      (on_order_book_update_message (stepEv initState (Ev.bookUpdate 0 500)) 0 600).asks) := by
  have hb := (cancel_resets_slot_immediately (stepEv initState (Ev.bookUpdate 500 0)) 600
    0).1 (by decide) (by decide) (by decide) (by decide)
  have ha := (cancel_resets_slot_immediately (stepEv initState (Ev.bookUpdate 0 500)) 0
    600).2 (by decide) (by decide) (by decide) (by decide)
  exact ⟨⟨hb.1, hb.2.1⟩, ⟨ha.1, ha.2.1⟩⟩

/-!
## Claim C5 — hedge accounting
-/

/-- Counterexample for claim C5 on the main engine `src/ASModel.py`: in the
reachable state `c5State` a hedge order has been issued and the (single)
hedge-position counter was updated immediately, at issue time, to `5` — no
hedge-fill acknowledgement has occurred — and the hedge-fill acknowledgement
itself changes nothing (there is no pending counter to decrement). -/
theorem hedge_fill_noop_counterexample :
    c5State.hedge_position = 5 ∧
    Intent.hedgeOrder 2 Side.buy MAX_ASK_NEAREST_TICK 5 ∈ c5State.intents ∧
    stepEv c5State (Ev.hedgeFill 2 100 5) = c5State := by
  decide

/-- Amended claim C5: in `src/ASModel.py` the engine keeps a single
hedge-position counter, updated immediately at issue time by the order's
signed size, and `on_hedge_filled_message` leaves the state unchanged; the
pending/confirmed split described by the claim exists only in the archive
variant `src/archive/momentumArbitrage6.py`, where issuing updates only the
pending counter and the hedge-fill acknowledgement moves the filled volume
from the pending counter to the confirmed hedge position. -/
theorem hedge_accounting_amended :
    (∀ (s : EngState) (id : Nat) (p : Int) (v : Nat),
      on_hedge_filled_message s id p v = s) ∧
    (∀ s : EngState, s.hedge_position < hedgeTarget s.position →
      (applyHedge s).hedge_position = hedgeTarget s.position ∧
      (applyHedge s).intents = s.intents ++ [Intent.hedgeOrder s.next_order_id Side.buy
        MAX_ASK_NEAREST_TICK (hedgeTarget s.position - s.hedge_position)]) ∧
    (∀ s : EngState, hedgeTarget s.position < s.hedge_position →
      (applyHedge s).hedge_position = hedgeTarget s.position ∧
      (applyHedge s).intents = s.intents ++ [Intent.hedgeOrder s.next_order_id Side.sell
        MIN_BID_NEAREST_TICK (s.hedge_position - hedgeTarget s.position)]) ∧
    (∀ (m : MomentumArbitrage6.MState) (hv : Int),
      (MomentumArbitrage6.issueHedgeAsk m hv).hedge_position = m.hedge_position ∧
      (hv ≠ 0 → m.hedge_position + m.pending_hedge_position - hv ≥ -100 →
        (MomentumArbitrage6.issueHedgeAsk m hv).pending_hedge_position =
          m.pending_hedge_position - hv)) ∧
    (∀ (m : MomentumArbitrage6.MState) (hv : Int),
      (MomentumArbitrage6.issueHedgeBid m hv).hedge_position = m.hedge_position ∧
      (hv ≠ 0 → m.hedge_position + m.pending_hedge_position + hv ≤ 100 →
        (MomentumArbitrage6.issueHedgeBid m hv).pending_hedge_position =
          m.pending_hedge_position + hv)) ∧
    (∀ (m : MomentumArbitrage6.MState) (id : Nat) (p : Int) (v : Nat),
      id ∈ m.hedge_bids →
        (MomentumArbitrage6.on_hedge_filled_message m id p v).hedge_position =
          m.hedge_position + v ∧
        (MomentumArbitrage6.on_hedge_filled_message m id p v).pending_hedge_position =
          m.pending_hedge_position - v) ∧
    (∀ (m : MomentumArbitrage6.MState) (id : Nat) (p : Int) (v : Nat),
      id ∉ m.hedge_bids → id ∈ m.hedge_asks →
        (MomentumArbitrage6.on_hedge_filled_message m id p v).hedge_position =
          m.hedge_position - v ∧
        (MomentumArbitrage6.on_hedge_filled_message m id p v).pending_hedge_position =
          m.pending_hedge_position + v) := by
  refine ⟨fun s id p v => rfl, fun s h => ?_, fun s h => ?_, fun m hv => ?_, fun m hv => ?_,
    fun m id p v hmem => ?_, fun m id p v hnb hmem => ?_⟩
  · rw [applyHedge, if_pos h]
    constructor
    · simp
    · rfl
  · rw [applyHedge, if_neg (by omega), if_pos h]
    constructor
    · simp
    · rfl
  · constructor
    · unfold MomentumArbitrage6.issueHedgeAsk
      split_ifs <;> rfl
    · intro h1 h2
      rw [MomentumArbitrage6.issueHedgeAsk]
      rw [if_pos ⟨h1, h2⟩]
  · constructor
    · unfold MomentumArbitrage6.issueHedgeBid
      split_ifs <;> rfl
    · intro h1 h2
      rw [MomentumArbitrage6.issueHedgeBid]
      rw [if_pos ⟨h1, h2⟩]
  · rw [MomentumArbitrage6.on_hedge_filled_message, if_pos hmem]
    exact ⟨rfl, rfl⟩
  · rw [MomentumArbitrage6.on_hedge_filled_message, if_neg hnb, if_pos hmem]
    exact ⟨rfl, rfl⟩

/-!
## Claim C8 — reservation pricing
-/

/-- Claim C8: for a quoting-cycle invocation with non-zero best bid and ask,
the emitted quote prices of lines 96-123 are exactly the spec's
`ceil(r − δ/2)·tickSize` and `ceil(r + δ/2)·tickSize` with
`s = (b+a)/(2·tickSize)`, `r = s − q·γ·v·T`,
`δ = γ·v·T + (2/γ)·ln(1 + γ/k)`, `γ = 0.05`, `k = 1`; both sides round up
(`Int.ceil`), and the result is a function of exactly these inputs (hence
deterministic in them). -/
theorem pricer_matches_spec (b a q : ℤ) (v T : ℝ) (hb : b ≠ 0) (ha : a ≠ 0) :
    newBidPrice b a q v T = specBidQuote b a q v T ∧
    newAskPrice b a q v T = specAskQuote b a q v T := by
  have hr : reservationPrice (midPriceS b a) q v T = specReservation b a q v T := by
    unfold reservationPrice specReservation midPriceS specMidPrice
    ring
  have hd : optimalDelta v T = specSpread v T := by
    unfold optimalDelta specSpread
    ring
  constructor
  · unfold newBidPrice specBidQuote
    rw [hr, hd]
  · unfold newAskPrice specAskQuote
    rw [hr, hd]

/-- Witness for C8 at the concrete inputs `b = a = 1`, `q = 0`, `v = 0`,
`T = 1`. -/
theorem pricer_matches_spec_witness :
    newBidPrice 1 1 0 0 1 = specBidQuote 1 1 0 0 1 ∧
    newAskPrice 1 1 0 0 1 = specAskQuote 1 1 0 0 1 :=
  pricer_matches_spec 1 1 0 0 1 (by decide) (by decide)

/-!
## Claim C9 — volatility window
-/

theorem npVar_reverse (xs : List ℚ) : npVar xs.reverse = npVar xs := by
  unfold npVar
  simp [List.sum_reverse]

theorem npVar_eq_populationVariance (xs : List ℚ) :
    npVar xs = populationVariance xs := rfl

/-- Claim C9: the mid-price sample is admitted to the window if and only if
its truncation to an integer dollar value is non-zero; the variance used for
pricing is `0` while fewer than `lookback = 10` samples exist, and otherwise
equals the population variance of the 10 most recent samples. -/
theorem volatility_window_contract (mids : List ℚ) (b a : ℤ) :
    (pyInt (midSample b a) ≠ 0 →
      observeMid mids (midSample b a) = mids ++ [midSample b a]) ∧
    (pyInt (midSample b a) = 0 → observeMid mids (midSample b a) = mids) ∧
    (mids.length < lookback → handlerVar mids = 0) ∧
    (lookback ≤ mids.length →
      handlerVar mids = populationVariance (lastSamples lookback mids)) := by
  refine ⟨fun h => ?_, fun h => ?_, fun h => ?_, fun h => ?_⟩
  · rw [observeMid, if_pos h]
  · rw [observeMid, if_neg (by simp [h])]
  · rw [handlerVar, if_neg (not_le.mpr h)]
  · rw [handlerVar, if_pos h]
    unfold varSlice lastSamples
    rw [List.take_reverse, npVar_reverse, npVar_eq_populationVariance]

/-- Witness for C9: the sample `(100 + 300)/200 = 2` admitted to the empty
window, and the variance of a full ten-sample window. -/
theorem volatility_window_contract_witness :
    pyInt (midSample 100 300) ≠ 0 ∧
    observeMid [] (midSample 100 300) = [] ++ [midSample 100 300] ∧
    handlerVar [] = 0 ∧
    handlerVar [1, 2, 3, 4, 5, 6, 7, 8, 9, 10] =
      populationVariance (lastSamples lookback [1, 2, 3, 4, 5, 6, 7, 8, 9, 10]) := by
  have hm : midSample 100 300 = 2 := by
    norm_num [midSample, TICK_SIZE_IN_CENTS]
  have hne : pyInt (midSample 100 300) ≠ 0 := by
    rw [hm]
    decide
  exact ⟨hne, (volatility_window_contract [] 100 300).1 hne,
    (volatility_window_contract [] 100 300).2.2.1 (by decide),
    (volatility_window_contract [1, 2, 3, 4, 5, 6, 7, 8, 9, 10] 100 300).2.2.2 (by decide)⟩

/-- Witness for the amended C5 at concrete inputs: the engine state of the C5
trace just before the hedge issue, and a one-element variant state. -/
theorem hedge_accounting_amended_witness :
    on_hedge_filled_message c5State 2 100 5 = c5State ∧
    ((applyHedge { initState with position := 5 }).hedge_position =
      hedgeTarget ({ initState with position := 5 } : EngState).position ∧
     (applyHedge { initState with position := 5 }).intents =
      initState.intents ++ [Intent.hedgeOrder 1 Side.buy MAX_ASK_NEAREST_TICK 5]) ∧
    ((MomentumArbitrage6.on_hedge_filled_message
        { position := 0, hedge_position := 0, pending_hedge_position := 3,
          hedge_bids := [4], hedge_asks := [], next_order_id := 5, intents := [] } 4 100 3
      ).hedge_position = 0 + (3 : Nat) ∧
     (MomentumArbitrage6.on_hedge_filled_message
        { position := 0, hedge_position := 0, pending_hedge_position := 3,
          hedge_bids := [4], hedge_asks := [], next_order_id := 5, intents := [] } 4 100 3
      ).pending_hedge_position = 3 - (3 : Nat)) := by
  refine ⟨hedge_accounting_amended.1 c5State 2 100 5, ?_, ?_⟩
  · have h := hedge_accounting_amended.2.1 { initState with position := 5 } (by decide)
    exact h
  · exact hedge_accounting_amended.2.2.2.2.2.1 _ 4 100 3 (by decide)

/-!
## Claim C2 — position limits

The proof goes through the inductive invariant `Inv`: the position plus the
total remaining volume of the tracked live bids (resp. minus that of the
asks) stays within the limit, each remaining volume is at most the inserted
lot size, and the tracked id lists are duplicate-free, mutually disjoint and
below the id counter.
-/

theorem remSum_nonneg (r : RemMap) (l : List Nat) : 0 ≤ remSum r l :=
  Int.natCast_nonneg _

theorem remSum_cons (r : RemMap) (a : Nat) (l : List Nat) :
    remSum r (a :: l) = r a + remSum r l := by
  simp [remSum]

theorem remSum_perm (r : RemMap) {l1 l2 : List Nat} (h : l1.Perm l2) :
    remSum r l1 = remSum r l2 := by
  unfold remSum
  rw [List.Perm.sum_eq (List.Perm.map r h)]

theorem remSum_congr {r1 r2 : RemMap} (l : List Nat) (h : ∀ id ∈ l, r1 id = r2 id) :
    remSum r1 l = remSum r2 l := by
  unfold remSum
  rw [List.map_congr_left h]

theorem remSum_le (r : RemMap) (l : List Nat) (h : ∀ id ∈ l, r id ≤ 10) :
    remSum r l ≤ 10 * l.length := by
  induction l with
  | nil => simp [remSum]
  | cons a l ih =>
    rw [remSum_cons]
    have h1 := h a (List.mem_cons_self a l)
    have h2 := ih fun id hid => h id (List.mem_cons_of_mem _ hid)
    simp only [List.length_cons]
    push_cast
    omega

theorem remSum_insert_of_not_mem (r : RemMap) {a : Nat} {l : List Nat} (h : a ∉ l) :
    remSum r (l.insert a) = r a + remSum r l := by
  rw [List.insert_of_not_mem h, remSum_cons]

theorem remSum_erase (r : RemMap) {a : Nat} {l : List Nat} (h : a ∈ l) :
    remSum r l = r a + remSum r (l.erase a) := by
  rw [remSum_perm r (List.perm_cons_erase h), remSum_cons]

theorem remSum_erase_le (r : RemMap) (a : Nat) (l : List Nat) :
    remSum r (l.erase a) ≤ remSum r l := by
  by_cases h : a ∈ l
  · rw [remSum_erase r h]
    have := Int.natCast_nonneg (r a)
    omega
  · rw [List.erase_of_not_mem h]

theorem remSum_update_of_not_mem (r : RemMap) {a : Nat} {l : List Nat} (x : Nat)
    (h : a ∉ l) :
    remSum (fun j => if j = a then x else r j) l = remSum r l := by
  apply remSum_congr
  intro j hj
  have hne : j ≠ a := fun he => h (he ▸ hj)
  simp [hne]

theorem remSum_decrement (r : RemMap) {a : Nat} {l : List Nat} (v : Nat)
    (hnd : l.Nodup) (hmem : a ∈ l) (hv : v ≤ r a) :
    remSum (fun j => if j = a then r a - v else r j) l = remSum r l - v := by
  rw [remSum_perm _ (List.perm_cons_erase hmem), remSum_cons,
    remSum_perm r (List.perm_cons_erase hmem), remSum_cons]
  have h1 : (if a = a then r a - v else r a) = r a - v := if_pos rfl
  have h2 : remSum (fun j => if j = a then r a - v else r j) (l.erase a) =
      remSum r (l.erase a) :=
    remSum_congr _ fun j hj => by simp [(hnd.mem_erase_iff.mp hj).1]
  rw [h1, h2]
  have h3 : ((r a - v : Nat) : Int) = (r a : Int) - v := by omega
  rw [h3]
  ring

theorem status_fields (s : EngState) (id : Nat) (fv rv fees : Int) :
    (on_order_status_message s id fv rv fees).bids =
      (if rv = 0 then s.bids.erase id else s.bids) ∧
    (on_order_status_message s id fv rv fees).asks =
      (if rv = 0 then s.asks.erase id else s.asks) ∧
    (on_order_status_message s id fv rv fees).position = s.position ∧
    (on_order_status_message s id fv rv fees).next_order_id = s.next_order_id := by
  unfold on_order_status_message
  split_ifs <;> simp_all

theorem inv_status (s : EngState) (r : RemMap) (id : Nat) (fv rv fees : Int)
    (hInv : Inv s r) : Inv (on_order_status_message s id fv rv fees) r := by
  obtain ⟨hb, ha, hp, hn⟩ := status_fields s id fv rv fees
  by_cases h0 : rv = 0
  · rw [if_pos h0] at hb ha
    refine ⟨?_, ?_, ?_, ?_, ?_, ?_, ?_, ?_, ?_⟩
    · rw [hb]
      exact hInv.bids_nodup.erase id
    · rw [ha]
      exact hInv.asks_nodup.erase id
    · rw [hb, ha]
      exact fun j hj hj2 =>
        hInv.disj j (List.mem_of_mem_erase hj) (List.mem_of_mem_erase hj2)
    · rw [hb, hn]
      exact fun j hj => hInv.bids_lt j (List.mem_of_mem_erase hj)
    · rw [ha, hn]
      exact fun j hj => hInv.asks_lt j (List.mem_of_mem_erase hj)
    · rw [hb]
      exact fun j hj => hInv.bids_cap j (List.mem_of_mem_erase hj)
    · rw [ha]
      exact fun j hj => hInv.asks_cap j (List.mem_of_mem_erase hj)
    · rw [hb, hp]
      have h1 := remSum_erase_le r id s.bids
      have h2 := hInv.bid_bound
      omega
    · rw [ha, hp]
      have h1 := remSum_erase_le r id s.asks
      have h2 := hInv.ask_bound
      omega
  · rw [if_neg h0] at hb ha
    exact ⟨by rw [hb]; exact hInv.bids_nodup,
      by rw [ha]; exact hInv.asks_nodup,
      by rw [hb, ha]; exact hInv.disj,
      by rw [hb, hn]; exact hInv.bids_lt,
      by rw [ha, hn]; exact hInv.asks_lt,
      by rw [hb]; exact hInv.bids_cap,
      by rw [ha]; exact hInv.asks_cap,
      by rw [hb, hp]; exact hInv.bid_bound,
      by rw [ha, hp]; exact hInv.ask_bound⟩

theorem inv_applyHedge (t : EngState) (r : RemMap) (h : Inv t r) :
    Inv (applyHedge t) r := by
  refine ⟨?_, ?_, ?_, ?_, ?_, ?_, ?_, ?_, ?_⟩ <;>
    simp only [applyHedge_bids, applyHedge_asks, applyHedge_position]
  · exact h.bids_nodup
  · exact h.asks_nodup
  · exact h.disj
  · exact fun j hj => lt_of_lt_of_le (h.bids_lt j hj) (applyHedge_next_le t)
  · exact fun j hj => lt_of_lt_of_le (h.asks_lt j hj) (applyHedge_next_le t)
  · exact h.bids_cap
  · exact h.asks_cap
  · exact h.bid_bound
  · exact h.ask_bound

theorem inv_fill (s : EngState) (r : RemMap) (id : Nat) (p : Int) (v : Nat)
    (hInv : Inv s r) (hv : ValidEv s r (Ev.fill id p v)) :
    Inv (on_order_filled_message s id p v) (remStep s r (Ev.fill id p v)) := by
  obtain ⟨htr, hle⟩ := hv
  rcases htr with hbid | hask
  · have hnask : id ∉ s.asks := hInv.disj id hbid
    have hres : on_order_filled_message s id p v =
        applyHedge { s with
          position := s.position + v
          orders_history := ledgerUpdate s.orders_history p (v : Int) } := by
      rw [on_order_filled_message, if_pos hbid]
    rw [hres]
    refine inv_applyHedge _ _ ⟨?_, ?_, ?_, ?_, ?_, ?_, ?_, ?_, ?_⟩
    · exact hInv.bids_nodup
    · exact hInv.asks_nodup
    · exact hInv.disj
    · exact hInv.bids_lt
    · exact hInv.asks_lt
    · intro j hj
      show (if j = id then r id - v else r j) ≤ 10
      by_cases hje : j = id
      · subst hje
        rw [if_pos rfl]
        have h6 := hInv.bids_cap j hj
        omega
      · rw [if_neg hje]
        exact hInv.bids_cap j hj
    · intro j hj
      show (if j = id then r id - v else r j) ≤ 10
      have hje : j ≠ id := fun he => hnask (he ▸ hj)
      rw [if_neg hje]
      exact hInv.asks_cap j hj
    · show s.position + (v : Int) +
        remSum (fun j => if j = id then r id - v else r j) s.bids ≤ 100
      rw [remSum_decrement r v hInv.bids_nodup hbid hle]
      have h8 := hInv.bid_bound
      omega
    · show -100 ≤ s.position + (v : Int) -
        remSum (fun j => if j = id then r id - v else r j) s.asks
      rw [remSum_update_of_not_mem r (r id - v) hnask]
      have h9 := hInv.ask_bound
      omega
  · have hnbid : id ∉ s.bids := fun hb => hInv.disj id hb hask
    have hres : on_order_filled_message s id p v =
        applyHedge { s with
          position := s.position - v
          orders_history := ledgerUpdate s.orders_history p (-(v : Int)) } := by
      rw [on_order_filled_message, if_neg hnbid, if_pos hask]
    rw [hres]
    refine inv_applyHedge _ _ ⟨?_, ?_, ?_, ?_, ?_, ?_, ?_, ?_, ?_⟩
    · exact hInv.bids_nodup
    · exact hInv.asks_nodup
    · exact hInv.disj
    · exact hInv.bids_lt
    · exact hInv.asks_lt
    · intro j hj
      show (if j = id then r id - v else r j) ≤ 10
      have hje : j ≠ id := fun he => hnbid (he ▸ hj)
      rw [if_neg hje]
      exact hInv.bids_cap j hj
    · intro j hj
      show (if j = id then r id - v else r j) ≤ 10
      by_cases hje : j = id
      · subst hje
        rw [if_pos rfl]
        have h7 := hInv.asks_cap j hj
        omega
      · rw [if_neg hje]
        exact hInv.asks_cap j hj
    · show s.position - (v : Int) +
        remSum (fun j => if j = id then r id - v else r j) s.bids ≤ 100
      rw [remSum_update_of_not_mem r (r id - v) hnbid]
      have h8 := hInv.bid_bound
      omega
    · show -100 ≤ s.position - (v : Int) -
        remSum (fun j => if j = id then r id - v else r j) s.asks
      rw [remSum_decrement r v hInv.asks_nodup hask hle]
      have h9 := hInv.ask_bound
      omega

theorem inv_rem_congr (t : EngState) (r1 r2 : RemMap) (h : Inv t r1)
    (hpt : ∀ id, r1 id = r2 id) : Inv t r2 := by
  refine ⟨h.bids_nodup, h.asks_nodup, h.disj, h.bids_lt, h.asks_lt, ?_, ?_, ?_, ?_⟩
  · intro j hj
    rw [← hpt j]
    exact h.bids_cap j hj
  · intro j hj
    rw [← hpt j]
    exact h.asks_cap j hj
  · rw [← remSum_congr _ fun id _ => hpt id]
    exact h.bid_bound
  · rw [← remSum_congr _ fun id _ => hpt id]
    exact h.ask_bound

theorem inv_cancelBid (s : EngState) (r : RemMap) (nb : Int) (h : Inv s r) :
    Inv (cancelBidStage s nb) r := by
  refine ⟨?_, ?_, ?_, ?_, ?_, ?_, ?_, ?_, ?_⟩ <;>
    simp only [cancelBidStage_bids, cancelBidStage_asks, cancelBidStage_position,
      cancelBidStage_next]
  · exact h.bids_nodup
  · exact h.asks_nodup
  · exact h.disj
  · exact h.bids_lt
  · exact h.asks_lt
  · exact h.bids_cap
  · exact h.asks_cap
  · exact h.bid_bound
  · exact h.ask_bound

theorem inv_cancelAsk (s : EngState) (r : RemMap) (na : Int) (h : Inv s r) :
    Inv (cancelAskStage s na) r := by
  refine ⟨?_, ?_, ?_, ?_, ?_, ?_, ?_, ?_, ?_⟩ <;>
    simp only [cancelAskStage_bids, cancelAskStage_asks, cancelAskStage_position,
      cancelAskStage_next]
  · exact h.bids_nodup
  · exact h.asks_nodup
  · exact h.disj
  · exact h.bids_lt
  · exact h.asks_lt
  · exact h.bids_cap
  · exact h.asks_cap
  · exact h.bid_bound
  · exact h.ask_bound

theorem inv_insertBid_pos (t : EngState) (r : RemMap) (nb : Int) (h : Inv t r)
    (hc : t.bid_id = 0 ∧ nb ≠ 0 ∧
      t.position ≤ POSITION_LIMIT - (LOT_SIZE * t.bids.length + LOT_SIZE)) :
    Inv (insertBidStage t nb) (fun id => if id = t.next_order_id then 10 else r id) := by
  have hfresh : t.next_order_id ∉ t.bids := fun hm => lt_irrefl _ (h.bids_lt _ hm)
  have hfresha : t.next_order_id ∉ t.asks := fun hm => lt_irrefl _ (h.asks_lt _ hm)
  have hrec : insertBidStage t nb = { t with
      bid_id := t.next_order_id
      bid_price := nb
      intents := t.intents ++ [Intent.insertOrder t.next_order_id Side.buy nb 10]
      bids := t.bids.insert t.next_order_id
      next_order_id := t.next_order_id + 1 } := by
    rw [insertBidStage, if_pos hc]
  rw [hrec]
  have hbids : t.bids.insert t.next_order_id = t.next_order_id :: t.bids :=
    List.insert_of_not_mem hfresh
  refine ⟨?_, ?_, ?_, ?_, ?_, ?_, ?_, ?_, ?_⟩
  · show (t.bids.insert t.next_order_id).Nodup
    rw [hbids]
    exact List.nodup_cons.mpr ⟨hfresh, h.bids_nodup⟩
  · show t.asks.Nodup
    exact h.asks_nodup
  · show ∀ id ∈ t.bids.insert t.next_order_id, id ∉ t.asks
    intro j hj
    rw [hbids] at hj
    rcases List.mem_cons.mp hj with h1 | h2
    · subst h1
      exact hfresha
    · exact h.disj j h2
  · show ∀ id ∈ t.bids.insert t.next_order_id, id < t.next_order_id + 1
    intro j hj
    rw [hbids] at hj
    rcases List.mem_cons.mp hj with h1 | h2
    · omega
    · have := h.bids_lt j h2
      omega
  · show ∀ id ∈ t.asks, id < t.next_order_id + 1
    intro j hj
    have := h.asks_lt j hj
    omega
  · show ∀ id ∈ t.bids.insert t.next_order_id,
      (if id = t.next_order_id then 10 else r id) ≤ 10
    intro j hj
    by_cases hid : j = t.next_order_id
    · simp [hid]
    · rw [if_neg hid]
      rw [hbids] at hj
      rcases List.mem_cons.mp hj with h1 | h2
      · exact absurd h1 hid
      · exact h.bids_cap j h2
  · show ∀ id ∈ t.asks, (if id = t.next_order_id then 10 else r id) ≤ 10
    intro j hj
    have hid : j ≠ t.next_order_id := fun he => hfresha (he ▸ hj)
    rw [if_neg hid]
    exact h.asks_cap j hj
  · show t.position + remSum (fun id => if id = t.next_order_id then 10 else r id)
      (t.bids.insert t.next_order_id) ≤ 100
    rw [hbids, remSum_cons]
    have hcongr : remSum (fun id => if id = t.next_order_id then 10 else r id) t.bids =
        remSum r t.bids :=
      remSum_congr _ fun j hj => by
        have : j ≠ t.next_order_id := fun he => hfresh (he ▸ hj)
        simp [this]
    rw [hcongr]
    have h10 : (if t.next_order_id = t.next_order_id then 10 else r t.next_order_id) =
        10 := if_pos rfl
    rw [h10]
    have hle := remSum_le r t.bids h.bids_cap
    have hpos := hc.2.2
    unfold POSITION_LIMIT LOT_SIZE at hpos
    omega
  · show -100 ≤ t.position -
      remSum (fun id => if id = t.next_order_id then 10 else r id) t.asks
    have hcongr : remSum (fun id => if id = t.next_order_id then 10 else r id) t.asks =
        remSum r t.asks :=
      remSum_congr _ fun j hj => by
        have : j ≠ t.next_order_id := fun he => hfresha (he ▸ hj)
        simp [this]
    rw [hcongr]
    exact h.ask_bound

theorem inv_insertBid_neg (t : EngState) (r : RemMap) (nb : Int) (h : Inv t r)
    (hc : ¬ (t.bid_id = 0 ∧ nb ≠ 0 ∧
      t.position ≤ POSITION_LIMIT - (LOT_SIZE * t.bids.length + LOT_SIZE))) :
    Inv (insertBidStage t nb) r := by
  rw [insertBidStage, if_neg hc]
  exact h

theorem inv_insertAsk_pos (t : EngState) (r : RemMap) (na : Int) (h : Inv t r)
    (hc : t.ask_id = 0 ∧ na ≠ 0 ∧
      t.position ≥ -POSITION_LIMIT + (LOT_SIZE * t.asks.length + LOT_SIZE)) :
    Inv (insertAskStage t na) (fun id => if id = t.next_order_id then 10 else r id) := by
  have hfresh : t.next_order_id ∉ t.asks := fun hm => lt_irrefl _ (h.asks_lt _ hm)
  have hfreshb : t.next_order_id ∉ t.bids := fun hm => lt_irrefl _ (h.bids_lt _ hm)
  have hrec : insertAskStage t na = { t with
      ask_id := t.next_order_id
      ask_price := na
      intents := t.intents ++ [Intent.insertOrder t.next_order_id Side.sell na 10]
      asks := t.asks.insert t.next_order_id
      next_order_id := t.next_order_id + 1 } := by
    rw [insertAskStage, if_pos hc]
  rw [hrec]
  have hasks : t.asks.insert t.next_order_id = t.next_order_id :: t.asks :=
    List.insert_of_not_mem hfresh
  refine ⟨?_, ?_, ?_, ?_, ?_, ?_, ?_, ?_, ?_⟩
  · show t.bids.Nodup
    exact h.bids_nodup
  · show (t.asks.insert t.next_order_id).Nodup
    rw [hasks]
    exact List.nodup_cons.mpr ⟨hfresh, h.asks_nodup⟩
  · show ∀ id ∈ t.bids, id ∉ t.asks.insert t.next_order_id
    intro j hj
    rw [hasks]
    intro hmem
    rcases List.mem_cons.mp hmem with h1 | h2
    · exact hfreshb (h1 ▸ hj)
    · exact h.disj j hj h2
  · show ∀ id ∈ t.bids, id < t.next_order_id + 1
    intro j hj
    have := h.bids_lt j hj
    omega
  · show ∀ id ∈ t.asks.insert t.next_order_id, id < t.next_order_id + 1
    intro j hj
    rw [hasks] at hj
    rcases List.mem_cons.mp hj with h1 | h2
    · omega
    · have := h.asks_lt j h2
      omega
  · show ∀ id ∈ t.bids, (if id = t.next_order_id then 10 else r id) ≤ 10
    intro j hj
    have hid : j ≠ t.next_order_id := fun he => hfreshb (he ▸ hj)
    rw [if_neg hid]
    exact h.bids_cap j hj
  · show ∀ id ∈ t.asks.insert t.next_order_id,
      (if id = t.next_order_id then 10 else r id) ≤ 10
    intro j hj
    by_cases hid : j = t.next_order_id
    · simp [hid]
    · rw [if_neg hid]
      rw [hasks] at hj
      rcases List.mem_cons.mp hj with h1 | h2
      · exact absurd h1 hid
      · exact h.asks_cap j h2
  · show t.position + remSum (fun id => if id = t.next_order_id then 10 else r id)
      t.bids ≤ 100
    have hcongr : remSum (fun id => if id = t.next_order_id then 10 else r id) t.bids =
        remSum r t.bids :=
      remSum_congr _ fun j hj => by
        have : j ≠ t.next_order_id := fun he => hfreshb (he ▸ hj)
        simp [this]
    rw [hcongr]
    exact h.bid_bound
  · show -100 ≤ t.position - remSum (fun id => if id = t.next_order_id then 10 else r id)
      (t.asks.insert t.next_order_id)
    rw [hasks, remSum_cons]
    have hcongr : remSum (fun id => if id = t.next_order_id then 10 else r id) t.asks =
        remSum r t.asks :=
      remSum_congr _ fun j hj => by
        have : j ≠ t.next_order_id := fun he => hfresh (he ▸ hj)
        simp [this]
    rw [hcongr]
    have h10 : (if t.next_order_id = t.next_order_id then 10 else r t.next_order_id) =
        10 := if_pos rfl
    rw [h10]
    have hle := remSum_le r t.asks h.asks_cap
    have hpos := hc.2.2
    unfold POSITION_LIMIT LOT_SIZE at hpos
    omega

theorem inv_insertAsk_neg (t : EngState) (r : RemMap) (na : Int) (h : Inv t r)
    (hc : ¬ (t.ask_id = 0 ∧ na ≠ 0 ∧
      t.position ≥ -POSITION_LIMIT + (LOT_SIZE * t.asks.length + LOT_SIZE))) :
    Inv (insertAskStage t na) r := by
  rw [insertAskStage, if_neg hc]
  exact h

theorem inv_inserts (t : EngState) (r : RemMap) (nb na : Int) (h : Inv t r) :
    Inv (insertAskStage (insertBidStage t nb) na)
      (fun id =>
        if (id ∈ (insertAskStage (insertBidStage t nb) na).bids ∧ id ∉ t.bids) ∨
            (id ∈ (insertAskStage (insertBidStage t nb) na).asks ∧ id ∉ t.asks) then 10
        else r id) := by
  have hfreshb : t.next_order_id ∉ t.bids := fun hm => lt_irrefl _ (h.bids_lt _ hm)
  have hfresha : t.next_order_id ∉ t.asks := fun hm => lt_irrefl _ (h.asks_lt _ hm)
  have hb4 : (insertAskStage (insertBidStage t nb) na).bids = (insertBidStage t nb).bids :=
    insertAskStage_bids _ na
  by_cases hcB : t.bid_id = 0 ∧ nb ≠ 0 ∧
      t.position ≤ POSITION_LIMIT - (LOT_SIZE * t.bids.length + LOT_SIZE)
  · have hA := inv_insertBid_pos t r nb h hcB
    have hrecB : insertBidStage t nb = { t with
        bid_id := t.next_order_id
        bid_price := nb
        intents := t.intents ++ [Intent.insertOrder t.next_order_id Side.buy nb 10]
        bids := t.bids.insert t.next_order_id
        next_order_id := t.next_order_id + 1 } := by
      rw [insertBidStage, if_pos hcB]
    have hb3 : (insertBidStage t nb).bids = t.next_order_id :: t.bids := by
      rw [hrecB]
      exact List.insert_of_not_mem hfreshb
    have ha3 : (insertBidStage t nb).asks = t.asks := insertBidStage_asks t nb
    have hn3 : (insertBidStage t nb).next_order_id = t.next_order_id + 1 := by
      rw [hrecB]
    by_cases hcA : (insertBidStage t nb).ask_id = 0 ∧ na ≠ 0 ∧
        (insertBidStage t nb).position ≥ -POSITION_LIMIT +
          (LOT_SIZE * (insertBidStage t nb).asks.length + LOT_SIZE)
    · have hB := inv_insertAsk_pos (insertBidStage t nb) _ na hA hcA
      have hfresha2 : (insertBidStage t nb).next_order_id ∉ (insertBidStage t nb).asks :=
        fun hm => lt_irrefl _ (hA.asks_lt _ hm)
      have hrecA : insertAskStage (insertBidStage t nb) na =
          { insertBidStage t nb with
            ask_id := (insertBidStage t nb).next_order_id
            ask_price := na
            intents := (insertBidStage t nb).intents ++
              [Intent.insertOrder (insertBidStage t nb).next_order_id Side.sell na 10]
            asks := (insertBidStage t nb).asks.insert (insertBidStage t nb).next_order_id
            next_order_id := (insertBidStage t nb).next_order_id + 1 } := by
        rw [insertAskStage, if_pos hcA]
      have ha4 : (insertAskStage (insertBidStage t nb) na).asks =
          (insertBidStage t nb).next_order_id :: (insertBidStage t nb).asks := by
        rw [hrecA]
        exact List.insert_of_not_mem hfresha2
      refine inv_rem_congr _ _ _ hB ?_
      intro id
      by_cases hid1 : id = (insertBidStage t nb).next_order_id
      · rw [if_pos hid1]
        have hne : id ∉ t.asks := by
          rw [hid1, hn3]
          intro hm
          have := h.asks_lt _ hm
          omega
        have hmem : id ∈ (insertAskStage (insertBidStage t nb) na).asks := by
          rw [ha4, hid1]
          exact List.mem_cons_self _ _
        rw [if_pos (Or.inr ⟨hmem, hne⟩)]
      · rw [if_neg hid1]
        by_cases hid2 : id = t.next_order_id
        · rw [if_pos hid2]
          have hmem : id ∈ (insertAskStage (insertBidStage t nb) na).bids := by
            rw [hb4, hb3, hid2]
            exact List.mem_cons_self _ _
          rw [if_pos (Or.inl ⟨hmem, hid2 ▸ hfreshb⟩)]
        · rw [if_neg hid2]
          have hnc : ¬ ((id ∈ (insertAskStage (insertBidStage t nb) na).bids ∧
              id ∉ t.bids) ∨
              (id ∈ (insertAskStage (insertBidStage t nb) na).asks ∧ id ∉ t.asks)) := by
            rw [hb4, hb3, ha4, ha3]
            rintro (⟨hm, hnm⟩ | ⟨hm, hnm⟩)
            · rcases List.mem_cons.mp hm with h1 | h2
              · exact hid2 h1
              · exact hnm h2
            · rcases List.mem_cons.mp hm with h1 | h2
              · exact hid1 h1
              · exact hnm h2
          rw [if_neg hnc]
    · have hB := inv_insertAsk_neg (insertBidStage t nb) _ na hA hcA
      have ha4 : (insertAskStage (insertBidStage t nb) na).asks =
          (insertBidStage t nb).asks := by
        rw [insertAskStage, if_neg hcA]
      refine inv_rem_congr _ _ _ hB ?_
      intro id
      by_cases hid2 : id = t.next_order_id
      · rw [if_pos hid2]
        have hmem : id ∈ (insertAskStage (insertBidStage t nb) na).bids := by
          rw [hb4, hb3, hid2]
          exact List.mem_cons_self _ _
        rw [if_pos (Or.inl ⟨hmem, hid2 ▸ hfreshb⟩)]
      · rw [if_neg hid2]
        have hnc : ¬ ((id ∈ (insertAskStage (insertBidStage t nb) na).bids ∧
            id ∉ t.bids) ∨
            (id ∈ (insertAskStage (insertBidStage t nb) na).asks ∧ id ∉ t.asks)) := by
          rw [hb4, hb3, ha4, ha3]
          rintro (⟨hm, hnm⟩ | ⟨hm, hnm⟩)
          · rcases List.mem_cons.mp hm with h1 | h2
            · exact hid2 h1
            · exact hnm h2
          · exact hnm hm
        rw [if_neg hnc]
  · have hA := inv_insertBid_neg t r nb h hcB
    have hb3 : (insertBidStage t nb).bids = t.bids := by
      rw [insertBidStage, if_neg hcB]
    have ha3 : (insertBidStage t nb).asks = t.asks := insertBidStage_asks t nb
    have hn3 : (insertBidStage t nb).next_order_id = t.next_order_id := by
      rw [insertBidStage, if_neg hcB]
    by_cases hcA : (insertBidStage t nb).ask_id = 0 ∧ na ≠ 0 ∧
        (insertBidStage t nb).position ≥ -POSITION_LIMIT +
          (LOT_SIZE * (insertBidStage t nb).asks.length + LOT_SIZE)
    · have hB := inv_insertAsk_pos (insertBidStage t nb) _ na hA hcA
      have hfresha2 : (insertBidStage t nb).next_order_id ∉ (insertBidStage t nb).asks :=
        fun hm => lt_irrefl _ (hA.asks_lt _ hm)
      have hrecA : insertAskStage (insertBidStage t nb) na =
          { insertBidStage t nb with
            ask_id := (insertBidStage t nb).next_order_id
            ask_price := na
            intents := (insertBidStage t nb).intents ++
              [Intent.insertOrder (insertBidStage t nb).next_order_id Side.sell na 10]
            asks := (insertBidStage t nb).asks.insert (insertBidStage t nb).next_order_id
            next_order_id := (insertBidStage t nb).next_order_id + 1 } := by
        rw [insertAskStage, if_pos hcA]
      have ha4 : (insertAskStage (insertBidStage t nb) na).asks =
          (insertBidStage t nb).next_order_id :: (insertBidStage t nb).asks := by
        rw [hrecA]
        exact List.insert_of_not_mem hfresha2
      refine inv_rem_congr _ _ _ hB ?_
      intro id
      by_cases hid1 : id = (insertBidStage t nb).next_order_id
      · rw [if_pos hid1]
        have hne : id ∉ t.asks := by
          rw [hid1, hn3]
          exact hfresha
        have hmem : id ∈ (insertAskStage (insertBidStage t nb) na).asks := by
          rw [ha4, hid1]
          exact List.mem_cons_self _ _
        rw [if_pos (Or.inr ⟨hmem, hne⟩)]
      · rw [if_neg hid1]
        have hnc : ¬ ((id ∈ (insertAskStage (insertBidStage t nb) na).bids ∧
            id ∉ t.bids) ∨
            (id ∈ (insertAskStage (insertBidStage t nb) na).asks ∧ id ∉ t.asks)) := by
          rw [hb4, hb3, ha4, ha3]
          rintro (⟨hm, hnm⟩ | ⟨hm, hnm⟩)
          · exact hnm hm
          · rcases List.mem_cons.mp hm with h1 | h2
            · exact hid1 h1
            · exact hnm h2
        rw [if_neg hnc]
    · have hB := inv_insertAsk_neg (insertBidStage t nb) _ na hA hcA
      have ha4 : (insertAskStage (insertBidStage t nb) na).asks =
          (insertBidStage t nb).asks := by
        rw [insertAskStage, if_neg hcA]
      refine inv_rem_congr _ _ _ hB ?_
      intro id
      have hnc : ¬ ((id ∈ (insertAskStage (insertBidStage t nb) na).bids ∧
          id ∉ t.bids) ∨
          (id ∈ (insertAskStage (insertBidStage t nb) na).asks ∧ id ∉ t.asks)) := by
        rw [hb4, hb3, ha4, ha3]
        rintro (⟨hm, hnm⟩ | ⟨hm, hnm⟩)
        · exact hnm hm
        · exact hnm hm
      rw [if_neg hnc]

theorem inv_bookUpdate (s : EngState) (r : RemMap) (nb na : Int) (hInv : Inv s r) :
    Inv (on_order_book_update_message s nb na) (remStep s r (Ev.bookUpdate nb na)) := by
  have hInv2 : Inv (cancelAskStage (cancelBidStage s nb) na) r :=
    inv_cancelAsk _ _ na (inv_cancelBid _ _ nb hInv)
  have hmain := inv_inserts (cancelAskStage (cancelBidStage s nb) na) r nb na hInv2
  have htb : (cancelAskStage (cancelBidStage s nb) na).bids = s.bids := by
    rw [cancelAskStage_bids, cancelBidStage_bids]
  have hta : (cancelAskStage (cancelBidStage s nb) na).asks = s.asks := by
    rw [cancelAskStage_asks, cancelBidStage_asks]
  refine inv_rem_congr _ _ _ hmain ?_
  intro id
  show _ = (if (id ∈ (on_order_book_update_message s nb na).bids ∧ id ∉ s.bids) ∨
      (id ∈ (on_order_book_update_message s nb na).asks ∧ id ∉ s.asks) then 10
    else r id)
  rw [← htb, ← hta]
  rfl

theorem inv_error (s : EngState) (r : RemMap) (id : Nat) (hInv : Inv s r) :
    Inv (on_error_message s id) r := by
  unfold on_error_message
  split_ifs
  · exact inv_status s r id 0 0 0 hInv
  · exact hInv

theorem inv_init : Inv initState rem0 := by
  refine ⟨List.nodup_nil, List.nodup_nil, ?_, ?_, ?_, ?_, ?_, by decide, by decide⟩ <;>
    exact fun id h => absurd h (List.not_mem_nil id)

theorem reachable_inv {s : EngState} {r : RemMap} (h : Reachable s r) : Inv s r := by
  induction h with
  | init => exact inv_init
  | @step s r e hR hV ih =>
    cases e with
    | bookUpdate nb na => exact inv_bookUpdate s r nb na ih
    | fill id p v => exact inv_fill s r id p v ih hV
    | status id fv rv fees => exact inv_status s r id fv rv fees ih
    | hedgeFill id p v => exact ih
    | error id => exact inv_error s r id ih

/-- Claim C2: in every reachable configuration — every fill is for a tracked
live order within its remaining (inserted-size-capped) volume, and every
insert is guarded by the code's headroom check — the net position stays
within the configured limit on both sides. -/
theorem position_within_limits (s : EngState) (r : RemMap) (h : Reachable s r) :
    -POSITION_LIMIT ≤ s.position ∧ s.position ≤ POSITION_LIMIT := by
  have hInv := reachable_inv h
  have h1 := hInv.bid_bound
  have h2 := hInv.ask_bound
  have h3 := remSum_nonneg r s.bids
  have h4 := remSum_nonneg r s.asks
  unfold POSITION_LIMIT
  omega

/-- Witness for C2 at the initial configuration. -/
theorem position_within_limits_witness :
    -POSITION_LIMIT ≤ initState.position ∧ initState.position ≤ POSITION_LIMIT :=
  position_within_limits initState rem0 Reachable.init

end ASModel
